import Mathlib

/-!
# breakoutjs: a shallow embedding of `src/js/main.js`

The game keeps one mutable `gameState` object and four Phaser groups
(`floorGroup`, `ballGroup`, `enemyGroup`, `arrowGroup`).  The embedding passes
them around explicitly as a `World`.

* JavaScript numbers that hold coordinates, velocities and angles live in an
  ordered field `α` (instantiated with `ℝ` for the claims "over the reals");
* `Date.now()` readings and the score are integers (`Int`);
* the `Math` object is a record `JSMath α` of functions, so every definition
  below is computable as soon as the supplied `Math` functions are;
* every call site of `Date.now()` / `Math.random()` in `update` gets its own
  reading in a `Frame`, because successive calls may return different values;
* the `angle` of an arrow is Phaser's accessor: an assignment stores the value
  wrapped into `[-180, 180)` (`Phaser.Math.Angle.WrapDegrees`).
-/

namespace Breakout

set_option linter.unusedSectionVars false

/-! ## Constant declarations (main.js lines 3-21) -/

section Constants

variable {α : Type} [LinearOrderedField α]

def CANVAS_WIDTH : α := 800
def CANVAS_HEIGHT : α := 600

def ARROW_X : α := 400
def ARROW_Y : α := 500
def FLOOR_X : α := 400
def FLOOR_Y : α := 515

def BALL_VELOCITY : α := 150
def SHOT_COOLDOWN_MS : Int := 3000

def ENEMY_SPAWN_LANES : Nat := 10
def SPAWN_LINE_WIDTH_PX : α := 80
def ENEMY_SPAWN_COOLDOWN_MS : Int := 1000
def ENEMY_SPAWN_CHANCE_PER_FRAME : α := 0.0005

def ENEMY_SPAWN_Y : α := 15
def MIN_TOPMOST_SPAWN_COORD : α := 40

end Constants

/-! ## Data model -/

/-- The functions of the JavaScript `Math` object that main.js calls
(`Math.floor`, `Math.min` and `Math.max` come from the order on `α`;
`Math.random` is an input of the frame). -/
structure JSMath (α : Type) where
  PI : α
  sqrt : α → α
  atan2 : α → α → α
  cos : α → α
  sin : α → α

/-- A static sprite of `floorGroup`. -/
structure Floor (α : Type) where
  x : α
  y : α

/-- A sprite of `arrowGroup`; `angle` is the Phaser heading in degrees. -/
structure Arrow (α : Type) where
  x : α
  y : α
  angle : α

/-- A physics sprite of `ballGroup`. -/
structure Ball (α : Type) where
  x : α
  y : α
  vx : α
  vy : α
  collideWorldBounds : Bool
  bounceX : α
  bounceY : α

/-- A physics sprite of `enemyGroup`. -/
structure Enemy (α : Type) where
  x : α
  y : α
  vx : α
  vy : α
  collideWorldBounds : Bool

/-- The `gameState` object built by `startGame` (main.js lines 87-94). -/
structure GameState (α : Type) where
  score : Int
  lastShotTime : Int
  clickDragOngoing : Bool
  gameOver : Bool
  lastSpawnTime : List Int
  topmostEnemyOnLane : List α

/-- All mutable data of the program: `gameState`, the four groups
(`group.children.entries` as a list, oldest first) and the two text objects. -/
structure World (α : Type) where
  gameState : GameState α
  floorGroup : List (Floor α)
  ballGroup : List (Ball α)
  enemyGroup : List (Enemy α)
  arrowGroup : List (Arrow α)
  scoreText : String
  infoText : String

/-- What one call of `update()` reads from outside: the active pointer, one
reading for each call site of `Date.now()` (per lane inside the spawn loop) and
one `Math.random()` draw per lane. -/
structure Frame (α : Type) where
  pointerIsDown : Bool
  pointerX : α
  pointerY : α
  /-- Reading of `Date.now()` inside `canShoot()` on line 114. -/
  nowInfo : Int
  /-- Reading of `Date.now()` on line 115. -/
  nowCooldown : Int
  /-- Reading of `Date.now()` inside `canShoot()` on line 124. -/
  nowRelease : Int
  /-- Reading of `Date.now()` on line 211 (`clickDragReleased`). -/
  nowShot : Int
  /-- Reading of `Date.now()` on line 182, loop iteration `i`. -/
  nowLaneCheck : Nat → Int
  /-- Reading of `Date.now()` on line 186, loop iteration `i`. -/
  nowLaneSpawn : Nat → Int
  /-- Value of `Math.random()` on line 184, loop iteration `i`. -/
  random : Nat → α

section Program

variable {α : Type} [LinearOrderedField α] [FloorRing α]

/-! ## `canShoot` (lines 257-259) -/

/-- `canShoot()`, with the reading `now` of `Date.now()`. -/
def canShoot (now : Int) (g : GameState α) : Bool :=
  decide (now - g.lastShotTime > SHOT_COOLDOWN_MS)

/-! ## `startGame` and the restart key (lines 78-105) -/

/-- The object literal assigned to `gameState` in `startGame`. -/
def initialGameState : GameState α :=
  { score := 0
    lastShotTime := 0
    clickDragOngoing := false
    gameOver := false
    lastSpawnTime := List.replicate ENEMY_SPAWN_LANES 0
    topmostEnemyOnLane := List.replicate ENEMY_SPAWN_LANES CANVAS_HEIGHT }

/-- `startGame()`: replaces `gameState` and creates one floor and one arrow. -/
def startGame (w : World α) : World α :=
  { w with
    gameState := initialGameState
    floorGroup := w.floorGroup ++ [{ x := FLOOR_X, y := FLOOR_Y }]
    arrowGroup := w.arrowGroup ++ [{ x := ARROW_X, y := ARROW_Y, angle := 0 }] }

/-- The `keyup-R` handler registered in `create`. -/
def keyupR (w : World α) : World α :=
  if w.gameState.gameOver then startGame w else w

/-- The `pointerdown` handler that `startGame` installs on the arrows; it can
only fire on an arrow that exists. -/
def arrowPointerDown (w : World α) : World α :=
  match w.arrowGroup with
  | [] => w
  | _ :: _ => { w with gameState := { w.gameState with clickDragOngoing := true } }

/-! ## `clickDragReleased` and `spawnEnemy` (lines 192-225) -/

/-- Applies `f` to `entries[entries.length - 1]`. -/
def modifyLastEntry {β : Type} (f : β → β) : List β → List β
  | [] => []
  | [b] => [f b]
  | b :: c :: rest => b :: modifyLastEntry f (c :: rest)

/-- `ballGroup.create(x, y, 'ball')`: a body at rest with Phaser's defaults. -/
def createBall (x y : α) : Ball α :=
  { x := x, y := y, vx := 0, vy := 0, collideWorldBounds := false, bounceX := 0, bounceY := 0 }

/-- `enemyGroup.create(x, y, 'enemy')`. -/
def createEnemy (x y : α) : Enemy α :=
  { x := x, y := y, vx := 0, vy := 0, collideWorldBounds := false }

/-- `clickDragReleased(x, y)`; `now` is the reading on line 211. -/
def clickDragReleased (m : JSMath α) (now : Int) (x y : α) (w : World α) : World α :=
  if y ≤ FLOOR_Y then w
  else
    let dx := x - ARROW_X
    let dy := ARROW_Y - y
    let aimAngle := m.atan2 dy dx
    let balls := w.ballGroup ++ [createBall ARROW_X ARROW_Y]
    let balls := modifyLastEntry (fun b => { b with collideWorldBounds := true }) balls
    let balls := modifyLastEntry
      (fun b => { b with vx := -BALL_VELOCITY * m.cos aimAngle, vy := BALL_VELOCITY * m.sin aimAngle })
      balls
    let balls := modifyLastEntry (fun b => { b with bounceX := 1, bounceY := 1 }) balls
    { w with
      ballGroup := balls
      gameState := { w.gameState with lastShotTime := now } }

/-- `spawnEnemy(x, y)`. -/
def spawnEnemy (x y : α) (w : World α) : World α :=
  let enemies := w.enemyGroup ++ [createEnemy x y]
  let enemies := modifyLastEntry (fun e => { e with collideWorldBounds := true }) enemies
  let enemies := modifyLastEntry
    (fun e => { e with vx := 0, vy := min 50 (max 10 ((w.gameState.score : α) / 10)) })
    enemies
  { w with enemyGroup := enemies }

/-! ## Collision callbacks (lines 227-255) -/

/-- `ballHitsFloor(_floor, ball)`, the ball being `ballGroup` entry `ball`. -/
def ballHitsFloor (ball : Nat) (w : World α) : World α :=
  { w with ballGroup := w.ballGroup.eraseIdx ball }

/-- `ballHitsEnemy(_ball, enemy)`, the enemy being `enemyGroup` entry `enemy`. -/
def ballHitsEnemy (enemy : Nat) (w : World α) : World α :=
  { w with
    gameState := { w.gameState with score := w.gameState.score + 10 }
    enemyGroup := w.enemyGroup.eraseIdx enemy }

/-- `enemyHitsFloor(_enemy, _floor)`: every object of the four groups is
destroyed, which removes it from its group. -/
def enemyHitsFloor (w : World α) : World α :=
  { gameState := { w.gameState with gameOver := true }
    floorGroup := []
    ballGroup := []
    enemyGroup := []
    arrowGroup := []
    scoreText := "Game over! Press [r] to restart."
    infoText := "You scored " ++ toString w.gameState.score ++ " points." }

/-! ## `update` (lines 107-190) -/

/-- The countdown `cooldownTime` of line 115. -/
def cooldownTime (now : Int) (g : GameState α) : Int :=
  ⌊(((SHOT_COOLDOWN_MS - (now - g.lastShotTime) : Int) : α)) / 1000⌋ + 1

/-- "Update text" (lines 111-120). -/
def updateText (f : Frame α) (w : World α) : World α :=
  let newInfoText :=
    if !canShoot f.nowInfo w.gameState then
      let cooldownTime := cooldownTime f.nowCooldown w.gameState
      "Cooldown until next shot: " ++ toString cooldownTime ++ " second"
        ++ (if cooldownTime = 1 then "" else "s") ++ "."
    else if w.gameState.clickDragOngoing then
      "Drag to aim and release below the line to shoot!"
    else "Hold the mouse down on the arrow."
  { w with
    scoreText := "Score: " ++ toString w.gameState.score
    infoText := newInfoText }

/-- "Handle click and drag events" (lines 123-128). -/
def handleClickDrag (m : JSMath α) (f : Frame α) (w : World α) : World α :=
  if !f.pointerIsDown then
    let w1 :=
      if w.gameState.clickDragOngoing && canShoot f.nowRelease w.gameState then
        clickDragReleased m f.nowShot f.pointerX f.pointerY w
      else w
    { w1 with gameState := { w1.gameState with clickDragOngoing := false } }
  else w

/-- The heading assigned to the arrow on lines 132-140 for pointer `(px, py)`. -/
def arrowHeading (m : JSMath α) (px py : α) : α :=
  let dx := px - ARROW_X
  let dy := ARROW_Y - py
  90 - (m.atan2 dy dx * 180 / m.PI) + 180

/-- The JavaScript remainder `a % b` on numbers: `a - b * trunc(a / b)`. -/
def jsRem (a b : α) : α :=
  a - b * (((if 0 ≤ a / b then ⌊a / b⌋ else ⌈a / b⌉ : Int)) : α)

/-- Phaser's `Phaser.Math.Wrap(value, min, max)`:
`min + ((((value - min) % range) + range) % range)` with `range = max - min`. -/
def Wrap (value min max : α) : α :=
  let range := max - min
  min + jsRem (jsRem (value - min) range + range) range

/-- Phaser's `Phaser.Math.Angle.WrapDegrees(angle)`: `Wrap(angle, -180, 180)`. -/
def WrapDegrees (angle : α) : α := Wrap angle (-180) 180

/-- "Update arrow rotation" (lines 131-141).  `entries[0]` of an empty
`arrowGroup` is `undefined` and the assignment throws: `none`.  `angle` is
Phaser's accessor of a game object: assigning it stores `WrapDegrees` of the
value, and reading it gives back the stored heading, so `angle += 180` stores
`WrapDegrees (angle + 180)`. -/
def updateArrowRotation (m : JSMath α) (f : Frame α) (w : World α) : Option (World α) :=
  if w.gameState.clickDragOngoing then
    match w.arrowGroup with
    | [] => none
    | a :: rest =>
      let dx := f.pointerX - ARROW_X
      let dy := ARROW_Y - f.pointerY
      let a1 : Arrow α := { a with angle := WrapDegrees (90 - (m.atan2 dy dx * 180 / m.PI)) }
      let a2 : Arrow α := { a1 with angle := WrapDegrees (a1.angle + 180) }
      some { w with arrowGroup := a2 :: rest }
  else some w

/-- The body of the `forEach` on lines 145-164, for one ball. -/
def accelerateBall (m : JSMath α) (ball : Ball α) : Ball α :=
  let ballSpeed := m.sqrt (ball.vx * ball.vx + ball.vy * ball.vy)
  if ballSpeed = 0 then
    { ball with vx := 0, vy := -BALL_VELOCITY }
  else
    let scaleFactor := BALL_VELOCITY / ballSpeed
    { ball with vx := scaleFactor * ball.vx, vy := scaleFactor * ball.vy }

/-- "Accelerate balls to BALL_VELOCITY" (lines 145-164). -/
def accelerateBalls (m : JSMath α) (w : World α) : World α :=
  { w with ballGroup := w.ballGroup.map (accelerateBall m) }

/-- The body of the `forEach` on lines 169-175, for one enemy, acting on the
array `topmostEnemyOnLane`.  The model keeps the slots the array has: a lane
number that is negative or beyond the array leaves them untouched (JavaScript
would add a property outside the slots `0 .. length - 1`). -/
def recordEnemy (top : List α) (enemy : Enemy α) : List α :=
  let laneNumber : Int := ⌊enemy.x / SPAWN_LINE_WIDTH_PX⌋
  if laneNumber < 0 then top
  else
    match top[laneNumber.toNat]? with
    | none => top
    | some t => top.set laneNumber.toNat (min enemy.y t)

/-- "Update topmostEnemyOnLane" (lines 167-175). -/
def updateTopmostEnemyOnLane (w : World α) : World α :=
  let filled := List.replicate w.gameState.topmostEnemyOnLane.length (CANVAS_HEIGHT : α)
  { w with
    gameState := { w.gameState with topmostEnemyOnLane := w.enemyGroup.foldl recordEnemy filled } }

/-- The two conditions of lines 182-184 for lane `i`: the lane is eligible and
the draw succeeds.  A missing array slot reads as `undefined`, which makes the
comparison false. -/
def laneSpawns (f : Frame α) (i : Nat) (w : World α) : Bool :=
  match w.gameState.lastSpawnTime[i]?, w.gameState.topmostEnemyOnLane[i]? with
  | some t, some top =>
    (decide (f.nowLaneCheck i - t ≥ ENEMY_SPAWN_COOLDOWN_MS)
      && decide (top > MIN_TOPMOST_SPAWN_COORD))
      && decide (f.random i < ENEMY_SPAWN_CHANCE_PER_FRAME)
  | _, _ => false

/-- The body of the `for` loop on lines 178-189 for lane `i`. -/
def considerLane (f : Frame α) (i : Nat) (w : World α) : World α :=
  if laneSpawns f i w then
    let w1 := spawnEnemy (((i : α) + 0.5) * SPAWN_LINE_WIDTH_PX) ENEMY_SPAWN_Y w
    { w1 with
      gameState :=
        { w1.gameState with lastSpawnTime := w1.gameState.lastSpawnTime.set i (f.nowLaneSpawn i) } }
  else w

/-- The `for` loop on lines 178-189. -/
def spawnEnemies (f : Frame α) (w : World α) : World α :=
  (List.range ENEMY_SPAWN_LANES).foldl (fun acc i => considerLane f i acc) w

/-- `update()`.  When the assignment to `entries[0].angle` throws, the call stops:
`error` carries the world as the statements before it left it. -/
def update (m : JSMath α) (f : Frame α) (w : World α) : Except (World α) (World α) :=
  if w.gameState.gameOver then .ok w
  else
    let w2 := handleClickDrag m f (updateText f w)
    match updateArrowRotation m f w2 with
    | none => .error w2
    | some w3 => .ok (spawnEnemies f (updateTopmostEnemyOnLane (accelerateBalls m w3)))

/-! ## Sessions: the world between two callbacks -/

/-- `create()` (lines 58-83): empty groups, `startGame()`, then the two texts. -/
def create : World α :=
  let w : World α := startGame
    { gameState := initialGameState
      floorGroup := [], ballGroup := [], enemyGroup := [], arrowGroup := []
      scoreText := "", infoText := "" }
  { w with scoreText := "Score: " ++ toString w.gameState.score, infoText := "" }

/-- A frame in which every `Date.now()` reading is `now` and every
`Math.random()` draw is `r`. -/
def steadyFrame (now : Int) (isDown : Bool) (x y r : α) : Frame α :=
  { pointerIsDown := isDown, pointerX := x, pointerY := y
    nowInfo := now, nowCooldown := now, nowRelease := now, nowShot := now
    nowLaneCheck := fun _ => now, nowLaneSpawn := fun _ => now
    random := fun _ => r }

/-- The callbacks Phaser can run on the world, one at a time: a frame of
`update`, the arrow's `pointerdown`, the three collision callbacks, the
`keyup-R` handler, and the arcade-physics step, which moves the bodies (the
model lets it install any bodies, so it covers every motion and bounce). -/
inductive Event (α : Type) where
  | tick (f : Frame α)
  | pointerDown
  | ballHitsFloor (ball : Nat)
  | ballHitsEnemy (enemy : Nat)
  | enemyHitsFloor
  | keyupR
  | physics (balls : List (Ball α)) (enemies : List (Enemy α))

/-- The world after one callback; a frame whose `update` throws leaves the
world as it was at the throw. -/
def step (m : JSMath α) (e : Event α) (w : World α) : World α :=
  match e with
  | .tick f =>
    match update m f w with
    | .ok w1 => w1
    | .error w1 => w1
  | .pointerDown => arrowPointerDown w
  | .ballHitsFloor ball => ballHitsFloor ball w
  | .ballHitsEnemy enemy => ballHitsEnemy enemy w
  | .enemyHitsFloor => enemyHitsFloor w
  | .keyupR => keyupR w
  | .physics balls enemies => { w with ballGroup := balls, enemyGroup := enemies }

/-- The world after a sequence of callbacks. -/
def run (m : JSMath α) (es : List (Event α)) (w : World α) : World α :=
  es.foldl (fun acc e => step m e acc) w

/-- History of the spawn loop over the lanes `ls`: one record
`(lane, value stored in lastSpawnTime[lane])` for every iteration that takes
the branch of lines 185-186. -/
def spawnLogOver (f : Frame α) : List Nat → World α → List (Nat × Int)
  | [], _ => []
  | i :: ls, w =>
    (if laneSpawns f i w then [(i, f.nowLaneSpawn i)] else [])
      ++ spawnLogOver f ls (considerLane f i w)

/-- The spawn records of one `update` call. -/
def updateSpawnLog (m : JSMath α) (f : Frame α) (w : World α) : List (Nat × Int) :=
  if w.gameState.gameOver then []
  else
    match updateArrowRotation m f (handleClickDrag m f (updateText f w)) with
    | none => []
    | some w3 =>
      spawnLogOver f (List.range ENEMY_SPAWN_LANES)
        (updateTopmostEnemyOnLane (accelerateBalls m w3))

/-- The spawn records of one callback: only `update` spawns. -/
def eventSpawnLog (m : JSMath α) (e : Event α) (w : World α) : List (Nat × Int) :=
  match e with
  | .tick f => updateSpawnLog m f w
  | _ => []

/-- The spawn records of a sequence of callbacks, oldest first. -/
def runSpawnLog (m : JSMath α) : List (Event α) → World α → List (Nat × Int)
  | [], _ => []
  | e :: es, w => eventSpawnLog m e w ++ runSpawnLog m es (step m e w)

/-- The `Date.now()` readings of a frame, in program order. -/
def Frame.readings (f : Frame α) : List Int :=
  [f.nowInfo, f.nowCooldown, f.nowRelease, f.nowShot]
    ++ (List.range ENEMY_SPAWN_LANES).flatMap (fun i => [f.nowLaneCheck i, f.nowLaneSpawn i])

/-- The `Date.now()` readings of a sequence of callbacks, in program order. -/
def clockReadings : List (Event α) → List Int
  | [] => []
  | .tick f :: es => f.readings ++ clockReadings es
  | _ :: es => clockReadings es

end Program

/-! ## The real-number `Math` object -/

/-- `Math` over the reals: `Math.atan2 y x` is the argument of `x + y i`, in
`(-π, π]`, with `atan2 0 0 = 0`. -/
noncomputable def realMath : JSMath ℝ :=
  { PI := Real.pi
    sqrt := Real.sqrt
    atan2 := fun y x => Complex.arg ⟨x, y⟩
    cos := Real.cos
    sin := Real.sin }

/-! ## Vocabulary of the claims -/

section Vocabulary

variable {α : Type} [LinearOrderedField α] [FloorRing α]

/-- The ball that `clickDragReleased(x, y)` leaves at the end of `ballGroup`. -/
def launchedBall (m : JSMath α) (x y : α) : Ball α :=
  { x := 400, y := 500
    vx := -150 * m.cos (m.atan2 (500 - y) (x - 400))
    vy := 150 * m.sin (m.atan2 (500 - y) (x - 400))
    collideWorldBounds := true, bounceX := 1, bounceY := 1 }

/-- The enemy that lines 185 and 215-224 create for lane `i` at score `score`. -/
def spawnedEnemy (i : Nat) (score : Int) : Enemy α :=
  { x := ((i : α) + 0.5) * 80, y := 15, vx := 0, vy := min 50 (max 10 ((score : α) / 10)),
    collideWorldBounds := true }

/-- Sample world: a fresh session in which the arrow has been pressed. -/
def aimingWorld : World α := arrowPointerDown create

/-- Sample session: a frame at time 2000, a physics step, a frame at time 3000. -/
def sampleSession : List (Event α) :=
  [Event.tick (steadyFrame 2000 false 0 0 0), Event.physics [] [],
    Event.tick (steadyFrame 3000 false 0 0 0)]

/-- The three conditions of C4 for lane `i` in a frame that starts in world `w`:
the lane's timer is at least 1000 ms old, the recomputed topmost enemy of the
lane is below 40, and the lane's random draw is below 0.0005. -/
def laneSpawnDue (f : Frame α) (w : World α) (i : Nat) : Prop :=
  ∃ t top, w.gameState.lastSpawnTime[i]? = some t ∧
    (updateTopmostEnemyOnLane w).gameState.topmostEnemyOnLane[i]? = some top ∧
    f.nowLaneCheck i - t ≥ 1000 ∧ top > 40 ∧ f.random i < 0.0005

/-- The state C7 describes after a restart. -/
def Restarted (w : World α) : Prop :=
  w.gameState.score = 0 ∧ w.gameState.lastShotTime = 0 ∧
  w.gameState.clickDragOngoing = false ∧ w.gameState.gameOver = false ∧
  w.gameState.lastSpawnTime = [0, 0, 0, 0, 0, 0, 0, 0, 0, 0] ∧
  w.gameState.topmostEnemyOnLane = [600, 600, 600, 600, 600, 600, 600, 600, 600, 600] ∧
  w.floorGroup = [{ x := 400, y := 515 }] ∧
  w.arrowGroup = [{ x := 400, y := 500, angle := 0 }] ∧
  w.ballGroup = [] ∧ w.enemyGroup = []

/-- The heading that lines 137 and 140 leave in the arrow for pointer
`(px, py)`: the value of line 137 wrapped, plus 180, wrapped again. -/
def storedHeading (m : JSMath α) (px py : α) : α :=
  WrapDegrees (WrapDegrees (90 - (m.atan2 (500 - py) (px - 400) * 180 / m.PI)) + 180)

/-- The projectiles one frame of `update()` creates in world `w`: the launched
ball when the pointer is up, a drag is in progress, the cooldown is over at the
reading of line 124 and the release is below the floor line; none otherwise. -/
def firedBalls (m : JSMath α) (f : Frame α) (w : World α) : List (Ball α) :=
  if f.pointerIsDown = false ∧ w.gameState.clickDragOngoing = true ∧
      f.nowRelease - w.gameState.lastShotTime > 3000 ∧ 515 < f.pointerY then
    [launchedBall m f.pointerX f.pointerY]
  else []

/-- Sample world: a running session whose last shot was fired at clock time
1700000000000. -/
def cooledWorld : World α :=
  { (create : World α) with
    gameState := { (create : World α).gameState with lastShotTime := 1700000000000 } }

/-- Sample frame, 3000 ms after that shot: `Date.now()` returns 1700000003000
inside `canShoot()` on line 114 and 1700000003001 in every later call. -/
def boundaryFrame : Frame α :=
  { (steadyFrame 1700000003001 true 0 0 1 : Frame α) with nowInfo := 1700000003000 }

/-- The downward speed `v(s) = min(50, max(10, s / 10))` of C14. -/
def enemySpeed (s : Int) : α := min 50 (max 10 ((s : α) / 10))

/-- The minimum of 600 and the `y` of the enemies whose lane `⌊x / 80⌋` is `i`. -/
def laneTopmost (i : Nat) (enemies : List (Enemy α)) : α :=
  ((enemies.filter (fun e => decide (⌊e.x / 80⌋ = (i : Int)))).map (fun e => e.y)).foldr min 600

/-- Sample world: a fresh session with one enemy at `(120, 15)` and one at
`(120, 300)`, both in lane 1. -/
def twoEnemyWorld : World α :=
  { (create : World α) with
    enemyGroup := [spawnedEnemy 1 0, { (spawnedEnemy 1 0 : Enemy α) with y := 300 }] }

end Vocabulary

/-- The speed of a ball over the reals, `|v|`. -/
noncomputable def ballSpeed (b : Ball ℝ) : ℝ := Real.sqrt (b.vx * b.vx + b.vy * b.vy)

/-! ## Frame lemmas -/

section Lemmas

variable {α : Type} [LinearOrderedField α] [FloorRing α]

theorem modifyLastEntry_append_singleton {β : Type} (g : β → β) (l : List β) (b : β) :
    modifyLastEntry g (l ++ [b]) = l ++ [g b] := by
  induction l with
  | nil => rfl
  | cons a l ih =>
    cases l with
    | nil => rfl
    | cons c l => simpa [modifyLastEntry] using ih

theorem spawnEnemy_enemyGroup (x y : α) (w : World α) :
    (spawnEnemy x y w).enemyGroup = w.enemyGroup ++
      [{ x := x, y := y, vx := 0, vy := min 50 (max 10 ((w.gameState.score : α) / 10)),
         collideWorldBounds := true }] := by
  simp [spawnEnemy, modifyLastEntry_append_singleton, createEnemy]

theorem foldl_considerLane_proj {β : Type} (g : World α → β) (f : Frame α)
    (hg : ∀ i w, g (considerLane f i w) = g w) (ls : List Nat) (w : World α) :
    g (ls.foldl (fun acc i => considerLane f i acc) w) = g w := by
  induction ls generalizing w with
  | nil => rfl
  | cons i ls ih => rw [List.foldl_cons, ih, hg]

theorem spawnEnemies_proj {β : Type} (g : World α → β) (f : Frame α)
    (hg : ∀ i w, g (considerLane f i w) = g w) (w : World α) :
    g (spawnEnemies f w) = g w :=
  foldl_considerLane_proj g f hg _ w

theorem spawnEnemies_ballGroup (f : Frame α) (w : World α) :
    (spawnEnemies f w).ballGroup = w.ballGroup :=
  spawnEnemies_proj (fun w => w.ballGroup) f
    (fun i w => by unfold considerLane spawnEnemy; split <;> rfl) w

theorem spawnEnemies_lastShotTime (f : Frame α) (w : World α) :
    (spawnEnemies f w).gameState.lastShotTime = w.gameState.lastShotTime :=
  spawnEnemies_proj (fun w => w.gameState.lastShotTime) f
    (fun i w => by unfold considerLane spawnEnemy; split <;> rfl) w

theorem spawnEnemies_clickDragOngoing (f : Frame α) (w : World α) :
    (spawnEnemies f w).gameState.clickDragOngoing = w.gameState.clickDragOngoing :=
  spawnEnemies_proj (fun w => w.gameState.clickDragOngoing) f
    (fun i w => by unfold considerLane spawnEnemy; split <;> rfl) w

theorem updateText_gameState (f : Frame α) (w : World α) :
    (updateText f w).gameState = w.gameState := rfl

theorem updateText_ballGroup (f : Frame α) (w : World α) :
    (updateText f w).ballGroup = w.ballGroup := rfl

theorem clickDragReleased_below (m : JSMath α) (now : Int) (x y : α) (v : World α)
    (hy : 515 < y) :
    clickDragReleased m now x y v =
      { v with
        ballGroup := v.ballGroup ++ [launchedBall m x y]
        gameState := { v.gameState with lastShotTime := now } } := by
  have hy' : ¬ y ≤ (FLOOR_Y : α) := by simpa [FLOOR_Y] using hy
  simp [clickDragReleased, hy', modifyLastEntry_append_singleton, createBall, launchedBall,
    ARROW_X, ARROW_Y, BALL_VELOCITY]

theorem clickDragReleased_above (m : JSMath α) (now : Int) (x y : α) (v : World α)
    (hy : y ≤ 515) : clickDragReleased m now x y v = v := by
  have hy' : y ≤ (FLOOR_Y : α) := by simpa [FLOOR_Y] using hy
  simp [clickDragReleased, hy']

theorem handleClickDrag_fire (m : JSMath α) (f : Frame α) (v : World α)
    (hup : f.pointerIsDown = false) (hdrag : v.gameState.clickDragOngoing = true)
    (hcool : f.nowRelease - v.gameState.lastShotTime > 3000) (hy : 515 < f.pointerY) :
    handleClickDrag m f v =
      { v with
        ballGroup := v.ballGroup ++ [launchedBall m f.pointerX f.pointerY]
        gameState :=
          { v.gameState with lastShotTime := f.nowShot, clickDragOngoing := false } } := by
  have hshoot : canShoot f.nowRelease v.gameState = true := by
    simpa [canShoot, SHOT_COOLDOWN_MS] using hcool
  simp [handleClickDrag, hup, hshoot, hdrag, clickDragReleased_below m _ _ _ v hy]

theorem handleClickDrag_idle (m : JSMath α) (f : Frame α) (v : World α)
    (hup : f.pointerIsDown = false)
    (hno : ¬ (v.gameState.clickDragOngoing = true ∧
      f.nowRelease - v.gameState.lastShotTime > 3000 ∧ 515 < f.pointerY)) :
    handleClickDrag m f v =
      { v with gameState := { v.gameState with clickDragOngoing := false } } := by
  by_cases h1 : v.gameState.clickDragOngoing = true ∧ canShoot f.nowRelease v.gameState = true
  · have hy : f.pointerY ≤ 515 := by
      by_contra hy
      exact hno ⟨h1.1, by simpa [canShoot, SHOT_COOLDOWN_MS] using h1.2, not_le.mp hy⟩
    simp [handleClickDrag, hup, h1.1, h1.2, clickDragReleased_above m _ _ _ v hy]
  · have h1' : (v.gameState.clickDragOngoing && canShoot f.nowRelease v.gameState) = false := by
      simpa using h1
    simp [handleClickDrag, hup, h1']

/-- A Playing frame with the pointer up, a drag in progress, the cooldown over
and the release below the floor line completes and fires. -/
theorem update_fires (m : JSMath α) (f : Frame α) (w : World α)
    (hplaying : w.gameState.gameOver = false) (hup : f.pointerIsDown = false)
    (hdrag : w.gameState.clickDragOngoing = true)
    (hcool : f.nowRelease - w.gameState.lastShotTime > 3000) (hy : 515 < f.pointerY) :
    ∃ w', update m f w = .ok w' ∧
      w'.ballGroup =
        (w.ballGroup ++ [launchedBall m f.pointerX f.pointerY]).map (accelerateBall m) ∧
      w'.gameState.lastShotTime = f.nowShot ∧
      w'.gameState.clickDragOngoing = false := by
  have hstep := handleClickDrag_fire m f (updateText f w) hup hdrag hcool hy
  have hrot : updateArrowRotation m f (handleClickDrag m f (updateText f w)) =
      some (handleClickDrag m f (updateText f w)) := by
    unfold updateArrowRotation
    rw [hstep]
    rfl
  refine ⟨_, by simp only [update, hplaying, hrot]; rfl, ?_, ?_, ?_⟩
  · rw [spawnEnemies_ballGroup, hstep]
    rfl
  · rw [spawnEnemies_lastShotTime, hstep]
    rfl
  · rw [spawnEnemies_clickDragOngoing, hstep]
    rfl

/-- A Playing frame with the pointer up that does not meet the three firing
conditions completes without a shot. -/
theorem update_holds_fire (m : JSMath α) (f : Frame α) (w : World α)
    (hplaying : w.gameState.gameOver = false) (hup : f.pointerIsDown = false)
    (hno : ¬ (w.gameState.clickDragOngoing = true ∧
      f.nowRelease - w.gameState.lastShotTime > 3000 ∧ 515 < f.pointerY)) :
    ∃ w', update m f w = .ok w' ∧
      w'.ballGroup = w.ballGroup.map (accelerateBall m) ∧
      w'.gameState.lastShotTime = w.gameState.lastShotTime ∧
      w'.gameState.clickDragOngoing = false := by
  have hstep := handleClickDrag_idle m f (updateText f w) hup hno
  have hrot : updateArrowRotation m f (handleClickDrag m f (updateText f w)) =
      some (handleClickDrag m f (updateText f w)) := by
    unfold updateArrowRotation
    rw [hstep]
    rfl
  refine ⟨_, by simp only [update, hplaying, hrot]; rfl, ?_, ?_, ?_⟩
  · rw [spawnEnemies_ballGroup, hstep]
    rfl
  · rw [spawnEnemies_lastShotTime, hstep]
    rfl
  · rw [spawnEnemies_clickDragOngoing, hstep]
    rfl

theorem updateArrowRotation_idle (m : JSMath α) (f : Frame α) (v : World α)
    (hv : v.gameState.clickDragOngoing = false) : updateArrowRotation m f v = some v := by
  simp [updateArrowRotation, hv]

/-! ### The spawn loop -/

theorem considerLane_score (f : Frame α) (i : Nat) (w : World α) :
    (considerLane f i w).gameState.score = w.gameState.score := by
  unfold considerLane spawnEnemy; split <;> rfl

theorem considerLane_topmost (f : Frame α) (i : Nat) (w : World α) :
    (considerLane f i w).gameState.topmostEnemyOnLane = w.gameState.topmostEnemyOnLane := by
  unfold considerLane spawnEnemy; split <;> rfl

theorem considerLane_lastSpawnTime (f : Frame α) (i : Nat) (w : World α) :
    (considerLane f i w).gameState.lastSpawnTime =
      if laneSpawns f i w then w.gameState.lastSpawnTime.set i (f.nowLaneSpawn i)
      else w.gameState.lastSpawnTime := by
  unfold considerLane spawnEnemy; split <;> rfl

theorem considerLane_enemyGroup (f : Frame α) (i : Nat) (w : World α) :
    (considerLane f i w).enemyGroup =
      if laneSpawns f i w then w.enemyGroup ++ [spawnedEnemy i w.gameState.score]
      else w.enemyGroup := by
  unfold considerLane
  split
  · simp [spawnEnemy_enemyGroup, spawnedEnemy, SPAWN_LINE_WIDTH_PX, ENEMY_SPAWN_Y]
  · rfl

theorem laneSpawns_considerLane_of_ne (f : Frame α) {i j : Nat} (hij : i ≠ j) (w : World α) :
    laneSpawns f i (considerLane f j w) = laneSpawns f i w := by
  have hlast : (considerLane f j w).gameState.lastSpawnTime[i]? =
      w.gameState.lastSpawnTime[i]? := by
    rw [considerLane_lastSpawnTime]
    split
    · exact List.getElem?_set_ne (Ne.symm hij)
    · rfl
  unfold laneSpawns
  rw [considerLane_topmost, hlast]

theorem laneSpawns_lastSpawnTime (f : Frame α) (i : Nat) (w : World α)
    (h : laneSpawns f i w = true) :
    ∃ t0, w.gameState.lastSpawnTime[i]? = some t0 ∧ t0 + 1000 ≤ f.nowLaneCheck i := by
  unfold laneSpawns at h
  split at h
  · rename_i t top ht _
    refine ⟨t, ht, ?_⟩
    simp only [ENEMY_SPAWN_COOLDOWN_MS, Bool.and_eq_true, decide_eq_true_eq] at h
    omega
  · exact absurd h (by simp)

theorem foldl_considerLane_enemyGroup (f : Frame α) (ls : List Nat) (hls : ls.Nodup)
    (w : World α) :
    (ls.foldl (fun acc i => considerLane f i acc) w).enemyGroup =
      w.enemyGroup ++
        (ls.filter (fun i => laneSpawns f i w)).map (fun i => spawnedEnemy i w.gameState.score) := by
  induction ls generalizing w with
  | nil => simp
  | cons j ls ih =>
    have hj : j ∉ ls := (List.nodup_cons.mp hls).1
    have hfilter : ls.filter (fun i => laneSpawns f i (considerLane f j w)) =
        ls.filter (fun i => laneSpawns f i w) :=
      List.filter_congr (fun i hi =>
        laneSpawns_considerLane_of_ne f (fun (h : i = j) => hj (h ▸ hi)) w)
    rw [List.foldl_cons, ih (List.nodup_cons.mp hls).2, hfilter, considerLane_score,
      considerLane_enemyGroup, List.filter_cons]
    by_cases hs : laneSpawns f j w = true <;> simp [hs]

theorem foldl_considerLane_lastSpawnTime (f : Frame α) (ls : List Nat) (hls : ls.Nodup)
    (w : World α) (i : Nat) :
    (ls.foldl (fun acc i => considerLane f i acc) w).gameState.lastSpawnTime[i]? =
      if i ∈ ls ∧ laneSpawns f i w = true then some (f.nowLaneSpawn i)
      else w.gameState.lastSpawnTime[i]? := by
  induction ls generalizing w with
  | nil => simp
  | cons j ls ih =>
    have hj : j ∉ ls := (List.nodup_cons.mp hls).1
    rw [List.foldl_cons, ih (List.nodup_cons.mp hls).2, considerLane_lastSpawnTime]
    by_cases hij : i = j
    · subst hij
      by_cases hs : laneSpawns f i w = true
      · obtain ⟨t0, ht0, _⟩ := laneSpawns_lastSpawnTime f i w hs
        have hlt : i < w.gameState.lastSpawnTime.length := by
          by_contra hge
          rw [List.getElem?_eq_none (not_lt.mp hge)] at ht0
          exact absurd ht0 (by simp)
        simp [hj, hs, List.getElem?_set_self, hlt]
      · simp [hj, hs]
    · rw [laneSpawns_considerLane_of_ne f hij w]
      by_cases hs : laneSpawns f j w = true
      · simp [hij, hs, List.getElem?_set_ne (Ne.symm hij)]
      · simp [hij, hs]

theorem spawnLogOver_eq (f : Frame α) (ls : List Nat) (hls : ls.Nodup) (w : World α) :
    spawnLogOver f ls w =
      (ls.filter (fun i => laneSpawns f i w)).map (fun i => (i, f.nowLaneSpawn i)) := by
  induction ls generalizing w with
  | nil => rfl
  | cons j ls ih =>
    have hj : j ∉ ls := (List.nodup_cons.mp hls).1
    have hfilter : ls.filter (fun i => laneSpawns f i (considerLane f j w)) =
        ls.filter (fun i => laneSpawns f i w) :=
      List.filter_congr (fun i hi =>
        laneSpawns_considerLane_of_ne f (fun (h : i = j) => hj (h ▸ hi)) w)
    rw [spawnLogOver, ih (List.nodup_cons.mp hls).2, hfilter, List.filter_cons]
    by_cases hs : laneSpawns f j w = true <;> simp [hs]

/-! ### What one callback does to `lastSpawnTime` -/

theorem handleClickDrag_lastSpawnTime (m : JSMath α) (f : Frame α) (v : World α) :
    (handleClickDrag m f v).gameState.lastSpawnTime = v.gameState.lastSpawnTime := by
  unfold handleClickDrag clickDragReleased
  split
  · split
    · split <;> rfl
    · rfl
  · rfl

theorem updateArrowRotation_gameState (m : JSMath α) (f : Frame α) (v w3 : World α)
    (h : updateArrowRotation m f v = some w3) : w3.gameState = v.gameState := by
  unfold updateArrowRotation at h
  split at h
  · split at h
    · exact absurd h (by simp)
    · simp only [Option.some.injEq] at h
      rw [← h]
  · simp only [Option.some.injEq] at h
    rw [← h]

/-- Summary of one callback other than the restart key: its spawn records name
distinct lanes; a recorded lane had a stored time at least 1000 ms before the
record and now stores the recorded time; every other lane keeps its slot. -/
theorem eventSpawnLog_summary (m : JSMath α) (e : Event α) (w : World α)
    (hne : e ≠ Event.keyupR)
    (hclk : ∀ f, e = Event.tick f →
      ∀ i, i < ENEMY_SPAWN_LANES → f.nowLaneCheck i ≤ f.nowLaneSpawn i) :
    ((eventSpawnLog m e w).map Prod.fst).Nodup ∧
    (∀ p ∈ eventSpawnLog m e w,
      (∃ t0, w.gameState.lastSpawnTime[p.1]? = some t0 ∧ t0 + 1000 ≤ p.2) ∧
      (step m e w).gameState.lastSpawnTime[p.1]? = some p.2) ∧
    (∀ i, i ∉ (eventSpawnLog m e w).map Prod.fst →
      (step m e w).gameState.lastSpawnTime[i]? = w.gameState.lastSpawnTime[i]?) := by
  cases e with
  | tick f =>
    simp only [eventSpawnLog, step, update, updateSpawnLog]
    by_cases hover : w.gameState.gameOver = true
    · simp [hover]
    · simp only [hover, Bool.false_eq_true, if_false]
      cases hrot : updateArrowRotation m f (handleClickDrag m f (updateText f w)) with
      | none =>
        simp [handleClickDrag_lastSpawnTime, updateText_gameState]
      | some w3 =>
        have hlast : (updateTopmostEnemyOnLane (accelerateBalls m w3)).gameState.lastSpawnTime
            = w.gameState.lastSpawnTime := by
          have h3 := updateArrowRotation_gameState m f _ w3 hrot
          simp only [updateTopmostEnemyOnLane, accelerateBalls, h3,
            handleClickDrag_lastSpawnTime, updateText_gameState]
        simp only [spawnEnemies]
        generalize updateTopmostEnemyOnLane (accelerateBalls m w3) = wl at hlast ⊢
        rw [spawnLogOver_eq f _ (List.nodup_range _) wl]
        refine ⟨?_, ?_, ?_⟩
        · have hid : (Prod.fst ∘ fun i => (i, f.nowLaneSpawn i)) = (id : Nat → Nat) := rfl
          rw [List.map_map, hid, List.map_id]
          exact (List.nodup_range _).filter _
        · intro p hp
          obtain ⟨i, hi, rfl⟩ := List.mem_map.mp hp
          obtain ⟨hir, his⟩ := List.mem_filter.mp hi
          obtain ⟨t0, ht0, hle⟩ := laneSpawns_lastSpawnTime f i wl his
          have hc := hclk f rfl i (List.mem_range.mp hir)
          refine ⟨⟨t0, by rw [← hlast]; exact ht0, by simp only; omega⟩, ?_⟩
          rw [foldl_considerLane_lastSpawnTime f _ (List.nodup_range _) wl i]
          simp [hir, his]
        · intro i hi
          rw [foldl_considerLane_lastSpawnTime f _ (List.nodup_range _) wl i, ← hlast]
          have : ¬ (i ∈ List.range ENEMY_SPAWN_LANES ∧ laneSpawns f i wl = true) := by
            intro h
            exact hi (List.mem_map.mpr ⟨(i, f.nowLaneSpawn i),
              List.mem_map.mpr ⟨i, List.mem_filter.mpr h, rfl⟩, rfl⟩)
          rw [if_neg this]
  | pointerDown =>
    simp only [eventSpawnLog, step, arrowPointerDown]
    cases w.arrowGroup <;> simp
  | ballHitsFloor b => simp [eventSpawnLog, step, ballHitsFloor]
  | ballHitsEnemy b => simp [eventSpawnLog, step, ballHitsEnemy]
  | enemyHitsFloor => simp [eventSpawnLog, step, enemyHitsFloor]
  | keyupR => exact absurd rfl hne
  | physics bs es => simp [eventSpawnLog, step]

theorem runSpawnLog_spaced_aux (m : JSMath α) (es : List (Event α))
    (hsession : Event.keyupR ∉ es)
    (hclk : ∀ f, Event.tick f ∈ es →
      ∀ i, i < ENEMY_SPAWN_LANES → f.nowLaneCheck i ≤ f.nowLaneSpawn i)
    (w : World α) :
    (runSpawnLog m es w).Pairwise (fun a b => a.1 = b.1 → a.2 + 1000 ≤ b.2) ∧
    ∀ p ∈ runSpawnLog m es w,
      ∃ t0, w.gameState.lastSpawnTime[p.1]? = some t0 ∧ t0 + 1000 ≤ p.2 := by
  induction es generalizing w with
  | nil => simp [runSpawnLog]
  | cons e es ih =>
    have hne : e ≠ Event.keyupR := fun h => hsession (h ▸ List.mem_cons_self _ _)
    obtain ⟨hnd, hrec, hkeep⟩ := eventSpawnLog_summary m e w hne
      (fun f hf => hclk f (hf ▸ List.mem_cons_self _ _))
    obtain ⟨ihp, ihm⟩ := ih (fun h => hsession (List.mem_cons_of_mem _ h))
      (fun f hf => hclk f (List.mem_cons_of_mem _ hf)) (step m e w)
    rw [runSpawnLog]
    refine ⟨List.pairwise_append.mpr ⟨?_, ihp, ?_⟩, ?_⟩
    · have h1 : (eventSpawnLog m e w).Pairwise (fun a b => a.1 ≠ b.1) :=
        List.pairwise_map.mp hnd
      exact h1.imp (fun hab h => absurd h hab)
    · intro a ha b hb hab
      obtain ⟨t0, ht0, hle⟩ := ihm b hb
      have hset := (hrec a ha).2
      rw [hab, ht0] at hset
      have : t0 = a.2 := by simpa using hset
      omega
    · intro p hp
      rcases List.mem_append.mp hp with hp | hp
      · exact (hrec p hp).1
      · obtain ⟨t1, ht1, hle1⟩ := ihm p hp
        by_cases hin : p.1 ∈ (eventSpawnLog m e w).map Prod.fst
        · obtain ⟨q, hq, hqp⟩ := List.mem_map.mp hin
          obtain ⟨⟨t0, ht0, hle0⟩, hset⟩ := hrec q hq
          rw [hqp] at ht0 hset
          rw [ht1] at hset
          have : t1 = q.2 := by simpa using hset
          exact ⟨t0, ht0, by omega⟩
        · rw [hkeep p.1 hin] at ht1
          exact ⟨t1, ht1, hle1⟩

theorem readings_lane_le (es : List (Event α))
    (hclock : (clockReadings es).Pairwise (fun a b => a ≤ b)) (f : Frame α)
    (hf : Event.tick f ∈ es) (i : Nat) (hi : i < ENEMY_SPAWN_LANES) :
    f.nowLaneCheck i ≤ f.nowLaneSpawn i := by
  induction es with
  | nil => exact absurd hf (by simp)
  | cons e es ih =>
    cases e with
    | tick g =>
      simp only [clockReadings] at hclock
      obtain ⟨hg, hrest, _⟩ := List.pairwise_append.mp hclock
      rcases List.mem_cons.mp hf with h | h
      · have hfg : f = g := by injection h
        subst hfg
        simp only [Frame.readings] at hg
        have h2 := (List.pairwise_append.mp hg).2.1
        have h3 := (List.pairwise_flatMap.mp h2).1 i (List.mem_range.mpr hi)
        simpa using h3
      · exact ih hrest h
    | pointerDown =>
      exact ih (by simpa only [clockReadings] using hclock) (by simpa using hf)
    | ballHitsFloor b =>
      exact ih (by simpa only [clockReadings] using hclock) (by simpa using hf)
    | ballHitsEnemy b =>
      exact ih (by simpa only [clockReadings] using hclock) (by simpa using hf)
    | enemyHitsFloor =>
      exact ih (by simpa only [clockReadings] using hclock) (by simpa using hf)
    | keyupR =>
      exact ih (by simpa only [clockReadings] using hclock) (by simpa using hf)
    | physics bs en =>
      exact ih (by simpa only [clockReadings] using hclock) (by simpa using hf)

/-! ### The world in which the spawn loop of `update` starts -/

theorem handleClickDrag_frame (m : JSMath α) (f : Frame α) (v : World α) :
    (handleClickDrag m f v).enemyGroup = v.enemyGroup ∧
    (handleClickDrag m f v).arrowGroup = v.arrowGroup ∧
    (handleClickDrag m f v).floorGroup = v.floorGroup ∧
    (handleClickDrag m f v).gameState.score = v.gameState.score ∧
    (handleClickDrag m f v).gameState.gameOver = v.gameState.gameOver ∧
    (handleClickDrag m f v).gameState.topmostEnemyOnLane = v.gameState.topmostEnemyOnLane := by
  unfold handleClickDrag clickDragReleased
  split
  · split
    · split <;> simp
    · simp
  · simp

theorem updateArrowRotation_frame (m : JSMath α) (f : Frame α) (v w3 : World α)
    (h : updateArrowRotation m f v = some w3) :
    w3.gameState = v.gameState ∧ w3.enemyGroup = v.enemyGroup ∧ w3.ballGroup = v.ballGroup ∧
    w3.floorGroup = v.floorGroup := by
  unfold updateArrowRotation at h
  split at h
  · split at h
    · exact absurd h (by simp)
    · simp only [Option.some.injEq] at h
      rw [← h]
      simp
  · simp only [Option.some.injEq] at h
    rw [← h]
    simp

theorem updateArrowRotation_isSome (m : JSMath α) (f : Frame α) (v : World α)
    (ha : v.arrowGroup ≠ []) : ∃ w3, updateArrowRotation m f v = some w3 := by
  unfold updateArrowRotation
  split
  · split
    · rename_i h
      exact absurd h ha
    · exact ⟨_, rfl⟩
  · exact ⟨_, rfl⟩

/-- A Playing frame with an arrow completes, and its spawn loop starts in a
world `wl` that has the enemies, score and spawn timers of the start of the
frame and the recomputed `topmostEnemyOnLane`. -/
theorem update_playing (m : JSMath α) (f : Frame α) (w : World α)
    (hplaying : w.gameState.gameOver = false) (harrow : w.arrowGroup ≠ []) :
    ∃ wl, update m f w = .ok (spawnEnemies f wl) ∧
      wl.enemyGroup = w.enemyGroup ∧
      wl.gameState.score = w.gameState.score ∧
      wl.gameState.lastSpawnTime = w.gameState.lastSpawnTime ∧
      wl.gameState.topmostEnemyOnLane =
        (updateTopmostEnemyOnLane w).gameState.topmostEnemyOnLane := by
  have hfr := handleClickDrag_frame m f (updateText f w)
  obtain ⟨w3, h3⟩ := updateArrowRotation_isSome m f (handleClickDrag m f (updateText f w))
    (by rw [hfr.2.1]; exact harrow)
  obtain ⟨hg, he, _, _⟩ := updateArrowRotation_frame m f _ w3 h3
  refine ⟨updateTopmostEnemyOnLane (accelerateBalls m w3), ?_, ?_, ?_, ?_, ?_⟩
  · simp only [update, hplaying, h3]
    rfl
  · simp only [updateTopmostEnemyOnLane, accelerateBalls, he, hfr.1]
    rfl
  · simp only [updateTopmostEnemyOnLane, accelerateBalls, hg, hfr.2.2.2.1]
    rfl
  · simp only [updateTopmostEnemyOnLane, accelerateBalls, hg, handleClickDrag_lastSpawnTime]
    rfl
  · simp only [updateTopmostEnemyOnLane, accelerateBalls, hg, he, hfr.1, hfr.2.2.2.2.2]
    rfl

theorem spawnEnemies_arrowGroup (f : Frame α) (w : World α) :
    (spawnEnemies f w).arrowGroup = w.arrowGroup :=
  spawnEnemies_proj (fun w => w.arrowGroup) f
    (fun i w => by unfold considerLane spawnEnemy; split <;> rfl) w

/-- A Playing frame with an arrow completes, and every ball it leaves comes out
of `accelerateBall`. -/
theorem update_playing_balls (m : JSMath α) (f : Frame α) (w : World α)
    (hplaying : w.gameState.gameOver = false) (harrow : w.arrowGroup ≠ []) :
    ∃ (w' : World α) (balls : List (Ball α)),
      update m f w = .ok w' ∧ w'.ballGroup = balls.map (accelerateBall m) := by
  have hfr := handleClickDrag_frame m f (updateText f w)
  obtain ⟨w3, h3⟩ := updateArrowRotation_isSome m f (handleClickDrag m f (updateText f w))
    (by rw [hfr.2.1]; exact harrow)
  refine ⟨_, w3.ballGroup, by simp only [update, hplaying, h3]; rfl, ?_⟩
  rw [spawnEnemies_ballGroup]
  rfl

theorem handleClickDrag_infoText (m : JSMath α) (f : Frame α) (v : World α) :
    (handleClickDrag m f v).infoText = v.infoText := by
  unfold handleClickDrag clickDragReleased
  split
  · split
    · split <;> rfl
    · rfl
  · rfl

theorem updateArrowRotation_infoText (m : JSMath α) (f : Frame α) (v w3 : World α)
    (h : updateArrowRotation m f v = some w3) : w3.infoText = v.infoText := by
  unfold updateArrowRotation at h
  split at h
  · split at h
    · exact absurd h (by simp)
    · simp only [Option.some.injEq] at h
      rw [← h]
  · simp only [Option.some.injEq] at h
    rw [← h]

/-- A Playing frame with an arrow completes and shows the info text that
"Update text" computed. -/
theorem update_playing_infoText (m : JSMath α) (f : Frame α) (w : World α)
    (hplaying : w.gameState.gameOver = false) (harrow : w.arrowGroup ≠ []) :
    ∃ w', update m f w = .ok w' ∧ w'.infoText = (updateText f w).infoText := by
  have hfr := handleClickDrag_frame m f (updateText f w)
  obtain ⟨w3, h3⟩ := updateArrowRotation_isSome m f (handleClickDrag m f (updateText f w))
    (by rw [hfr.2.1]; exact harrow)
  refine ⟨_, by simp only [update, hplaying, h3]; rfl, ?_⟩
  rw [spawnEnemies_proj (fun v => v.infoText) f
    (fun i v => by unfold considerLane spawnEnemy; split <;> rfl)]
  show w3.infoText = _
  rw [updateArrowRotation_infoText m f _ w3 h3, handleClickDrag_infoText]

theorem handleClickDrag_ballGroup (m : JSMath α) (f : Frame α) (v : World α) :
    (handleClickDrag m f v).ballGroup = v.ballGroup ++ firedBalls m f v := by
  unfold firedBalls
  by_cases hup : f.pointerIsDown = false
  · by_cases hc : v.gameState.clickDragOngoing = true ∧
        f.nowRelease - v.gameState.lastShotTime > 3000 ∧ 515 < f.pointerY
    · rw [handleClickDrag_fire m f v hup hc.1 hc.2.1 hc.2.2, if_pos ⟨hup, hc⟩]
    · rw [handleClickDrag_idle m f v hup hc, if_neg (fun h => hc h.2)]
      simp
  · have hdown : f.pointerIsDown = true := by simpa using hup
    rw [if_neg (fun h => hup h.1)]
    simp [handleClickDrag, hdown]

/-- A Playing frame with an arrow completes; its `ballGroup` is the old one,
followed by the ball the frame fires (if any), each passed through
`accelerateBall`. -/
theorem update_playing_ballGroup (m : JSMath α) (f : Frame α) (w : World α)
    (hplaying : w.gameState.gameOver = false) (harrow : w.arrowGroup ≠ []) :
    ∃ w', update m f w = .ok w' ∧
      w'.ballGroup = (w.ballGroup ++ firedBalls m f w).map (accelerateBall m) := by
  have hfr := handleClickDrag_frame m f (updateText f w)
  obtain ⟨w3, h3⟩ := updateArrowRotation_isSome m f (handleClickDrag m f (updateText f w))
    (by rw [hfr.2.1]; exact harrow)
  obtain ⟨_, _, hb, _⟩ := updateArrowRotation_frame m f _ w3 h3
  refine ⟨_, by simp only [update, hplaying, h3]; rfl, ?_⟩
  rw [spawnEnemies_ballGroup]
  show w3.ballGroup.map (accelerateBall m) = _
  rw [hb, handleClickDrag_ballGroup]
  rfl

/-- While the pointer is held down on a drag, a Playing frame completes and
gives the first arrow the heading of the pointer position. -/
theorem update_dragging_arrow (m : JSMath α) (f : Frame α) (w : World α)
    (a : Arrow α) (rest : List (Arrow α))
    (hplaying : w.gameState.gameOver = false) (hdown : f.pointerIsDown = true)
    (hdrag : w.gameState.clickDragOngoing = true) (harrow : w.arrowGroup = a :: rest) :
    ∃ w', update m f w = .ok w' ∧
      w'.arrowGroup = { a with angle := storedHeading m f.pointerX f.pointerY } :: rest := by
  have hstep : handleClickDrag m f (updateText f w) = updateText f w := by
    simp [handleClickDrag, hdown]
  have hrot : updateArrowRotation m f (updateText f w) =
      some { updateText f w with
        arrowGroup := { a with angle := storedHeading m f.pointerX f.pointerY } :: rest } := by
    have ha : (updateText f w).arrowGroup = a :: rest := harrow
    have hd : (updateText f w).gameState.clickDragOngoing = true := hdrag
    simp only [updateArrowRotation, hd, if_true, storedHeading, ARROW_X, ARROW_Y]
    rw [ha]
  refine ⟨_, by simp only [update, hplaying, hstep, hrot]; rfl, ?_⟩
  rw [spawnEnemies_arrowGroup]
  rfl

theorem filter_eq_of_nodup (L : List Nat) (hL : L.Nodup) (i : Nat) :
    L.filter (fun j => decide (j = i)) = if i ∈ L then [i] else [] := by
  rw [List.filter_eq]
  split
  · rename_i h
    rw [List.count_eq_one_of_mem hL h]
    rfl
  · rename_i h
    rw [List.count_eq_zero_of_not_mem h]
    rfl

theorem spawnedEnemy_x_inj (i j : Nat) (s : Int) :
    (spawnedEnemy j s : Enemy α).x = ((i : α) + 0.5) * 80 ↔ j = i := by
  simp [spawnedEnemy]

theorem spawned_filter_lane (L : List Nat) (hL : L.Nodup) (p : Nat → Bool) (s : Int) (i : Nat) :
    (((L.filter p).map (fun j => (spawnedEnemy j s : Enemy α))).filter
        (fun e => decide (e.x = ((i : α) + 0.5) * 80))) =
      if i ∈ L ∧ p i = true then [spawnedEnemy i s] else [] := by
  have hp : ((fun e : Enemy α => decide (e.x = ((i : α) + 0.5) * 80)) ∘
      (fun j => (spawnedEnemy j s : Enemy α))) = fun j => decide (j = i) := by
    funext j
    simp only [Function.comp, spawnedEnemy_x_inj]
  rw [List.filter_map, hp, filter_eq_of_nodup _ (hL.filter p)]
  by_cases h : i ∈ L ∧ p i = true
  · simp [h, List.mem_filter]
  · simp [h, List.mem_filter]

/-! ### Phaser's angle wrapping -/

theorem jsRem_of_nonneg (a : α) (h : 0 ≤ a) :
    jsRem a 360 = a - 360 * ((⌊a / 360⌋ : Int) : α) := by
  unfold jsRem
  rw [if_pos (div_nonneg h (by norm_num))]

theorem jsRem_of_neg (a : α) (h : a < 0) :
    jsRem a 360 = a - 360 * ((⌈a / 360⌉ : Int) : α) := by
  unfold jsRem
  rw [if_neg (not_le.mpr (div_neg_of_neg_of_pos h (by norm_num)))]

theorem floor_div_of_mem (b : α) (k : Int) (h1 : 360 * (k : α) ≤ b) (h2 : b < 360 * (k : α) + 360) :
    ⌊b / 360⌋ = k := by
  rw [Int.floor_eq_iff]
  have hpos : (0 : α) < 360 := by norm_num
  constructor
  · rw [le_div_iff₀ hpos]
    linarith
  · rw [div_lt_iff₀ hpos]
    linarith

theorem jsRem_twice (a : α) :
    jsRem (jsRem a 360 + 360) 360 = a - 360 * ((⌊a / 360⌋ : Int) : α) := by
  have hpos : (0 : α) < 360 := by norm_num
  have hfl : 360 * ((⌊a / 360⌋ : Int) : α) ≤ a := by
    have := Int.floor_le (a / 360)
    rw [le_div_iff₀ hpos] at this
    linarith
  have hfu : a < 360 * ((⌊a / 360⌋ : Int) : α) + 360 := by
    have := Int.lt_floor_add_one (a / 360)
    rw [div_lt_iff₀ hpos] at this
    linarith
  by_cases h : 0 ≤ a
  · rw [jsRem_of_nonneg a h, jsRem_of_nonneg _ (by linarith)]
    have h1 : ⌊(a - 360 * ((⌊a / 360⌋ : Int) : α) + 360) / 360⌋ = 1 :=
      floor_div_of_mem _ 1 (by push_cast; linarith) (by push_cast; linarith)
    rw [h1]
    push_cast
    ring
  · have hneg : a < 0 := not_le.mp h
    have hcl : a ≤ 360 * ((⌈a / 360⌉ : Int) : α) := by
      have := Int.le_ceil (a / 360)
      rw [div_le_iff₀ hpos] at this
      linarith
    have hcu : 360 * ((⌈a / 360⌉ : Int) : α) < a + 360 := by
      have := Int.ceil_lt_add_one (a / 360)
      rw [← sub_lt_iff_lt_add, lt_div_iff₀ hpos] at this
      linarith
    rw [jsRem_of_neg a hneg, jsRem_of_nonneg _ (by linarith)]
    by_cases h0 : a = 360 * ((⌈a / 360⌉ : Int) : α)
    · have h1 : ⌊(a - 360 * ((⌈a / 360⌉ : Int) : α) + 360) / 360⌋ = 1 :=
        floor_div_of_mem _ 1 (by push_cast; linarith) (by push_cast; linarith)
      have h2 : ⌊a / 360⌋ = ⌈a / 360⌉ :=
        floor_div_of_mem a _ (by linarith) (by linarith)
      rw [h1, h2]
      push_cast
      ring
    · have hlt : a < 360 * ((⌈a / 360⌉ : Int) : α) := lt_of_le_of_ne hcl h0
      have h1 : ⌊(a - 360 * ((⌈a / 360⌉ : Int) : α) + 360) / 360⌋ = 0 :=
        floor_div_of_mem _ 0 (by push_cast; linarith) (by push_cast; linarith)
      have h2 : ⌊a / 360⌋ = ⌈a / 360⌉ - 1 :=
        floor_div_of_mem a _ (by push_cast; linarith) (by push_cast; linarith)
      rw [h1, h2]
      push_cast
      ring

/-- Closed form of the wrap: the heading minus a whole number of turns. -/
theorem WrapDegrees_eq (v : α) :
    WrapDegrees v = v - 360 * ((⌊(v + 180) / 360⌋ : Int) : α) := by
  have hr : (180 : α) - -180 = 360 := by norm_num
  have hv : v - -180 = v + 180 := by ring
  simp only [WrapDegrees, Wrap, hr, hv, jsRem_twice]
  ring

theorem WrapDegrees_mem (v : α) : -180 ≤ WrapDegrees v ∧ WrapDegrees v < 180 := by
  have hpos : (0 : α) < 360 := by norm_num
  rw [WrapDegrees_eq]
  have h1 := Int.floor_le ((v + 180) / 360)
  have h2 := Int.lt_floor_add_one ((v + 180) / 360)
  rw [le_div_iff₀ hpos] at h1
  rw [div_lt_iff₀ hpos] at h2
  constructor <;> linarith

theorem WrapDegrees_of_mem (v : α) (h1 : -180 ≤ v) (h2 : v < 180) : WrapDegrees v = v := by
  rw [WrapDegrees_eq, floor_div_of_mem (v + 180) 0 (by push_cast; linarith) (by push_cast; linarith)]
  push_cast
  ring

theorem WrapDegrees_sub_turns (v : α) (k : Int) :
    WrapDegrees (v - 360 * (k : α)) = WrapDegrees v := by
  have hpos : (0 : α) < 360 := by norm_num
  rw [WrapDegrees_eq, WrapDegrees_eq]
  have h1 := Int.floor_le ((v + 180) / 360)
  have h2 := Int.lt_floor_add_one ((v + 180) / 360)
  rw [le_div_iff₀ hpos] at h1
  rw [div_lt_iff₀ hpos] at h2
  have hk : ⌊(v - 360 * (k : α) + 180) / 360⌋ = ⌊(v + 180) / 360⌋ - k :=
    floor_div_of_mem _ _ (by push_cast; linarith) (by push_cast; linarith)
  rw [hk]
  push_cast
  ring

theorem storedHeading_eq_wrap (m : JSMath α) (px py : α) :
    storedHeading m px py = WrapDegrees (arrowHeading m px py) := by
  unfold storedHeading arrowHeading
  simp only [ARROW_X, ARROW_Y]
  rw [WrapDegrees_eq (90 - m.atan2 (500 - py) (px - 400) * 180 / m.PI)]
  have : 90 - m.atan2 (500 - py) (px - 400) * 180 / m.PI
      - 360 * ((⌊(90 - m.atan2 (500 - py) (px - 400) * 180 / m.PI + 180) / 360⌋ : Int) : α) + 180
      = 90 - m.atan2 (500 - py) (px - 400) * 180 / m.PI + 180
        - 360 * ((⌊(90 - m.atan2 (500 - py) (px - 400) * 180 / m.PI + 180) / 360⌋ : Int) : α) := by
    ring
  rw [this, WrapDegrees_sub_turns]

theorem WrapDegrees_add_half_of_mem (x : α) (l : -180 ≤ x) (u : x < 180) :
    |x - WrapDegrees (x + 180)| = 180 := by
  by_cases hneg : x < 0
  · rw [WrapDegrees_of_mem (x + 180) (by linarith) (by linarith)]
    have : x - (x + 180) = -180 := by ring
    rw [this, abs_neg, abs_of_pos (by norm_num)]
  · have hge : 0 ≤ x := not_lt.mp hneg
    have hw : WrapDegrees (x + 180) = x - 180 := by
      rw [WrapDegrees_eq,
        floor_div_of_mem (x + 180 + 180) 1 (by push_cast; linarith) (by push_cast; linarith)]
      push_cast
      ring
    have : x - (x - 180) = 180 := by ring
    rw [hw, this, abs_of_pos (by norm_num)]

theorem WrapDegrees_add_half (v : α) : |WrapDegrees v - WrapDegrees (v + 180)| = 180 := by
  obtain ⟨l, u⟩ := WrapDegrees_mem v
  have hshift : WrapDegrees (v + 180) = WrapDegrees (WrapDegrees v + 180) := by
    have h3 := WrapDegrees_sub_turns (v + 180) ⌊(v + 180) / 360⌋
    rw [← h3]
    congr 1
    rw [WrapDegrees_eq]
    ring
  rw [hshift]
  exact WrapDegrees_add_half_of_mem _ l u

/-- Two headings half a turn apart are stored half a turn apart. -/
theorem WrapDegrees_half_turn (h h' : α) (hd : |h - h'| = 180) :
    |WrapDegrees h - WrapDegrees h'| = 180 := by
  rcases (abs_eq (by norm_num : (0 : α) ≤ 180)).mp hd with h1 | h1
  · have : h = h' + 180 := by linarith
    rw [this, abs_sub_comm]
    exact WrapDegrees_add_half h'
  · have : h' = h + 180 := by linarith
    rw [this]
    exact WrapDegrees_add_half h

/-! ### The countdown -/

theorem floor_div_thousand (n : Int) : ⌊(n : α) / 1000⌋ = n / 1000 := by
  rw [Int.floor_eq_iff]
  have h1 : 1000 * (n / 1000) ≤ n := by omega
  have h2 : n < 1000 * (n / 1000) + 1000 := by omega
  have h1' : (1000 : α) * ((n / 1000 : Int) : α) ≤ (n : α) := by exact_mod_cast h1
  have h2' : (n : α) < 1000 * ((n / 1000 : Int) : α) + 1000 := by exact_mod_cast h2
  have hpos : (0 : α) < 1000 := by norm_num
  constructor
  · rw [le_div_iff₀ hpos]
    linarith
  · rw [div_lt_iff₀ hpos]
    linarith

theorem cooldownTime_eq (now : Int) (g : GameState α) :
    cooldownTime now g = (3000 - (now - g.lastShotTime)) / 1000 + 1 := by
  simp only [cooldownTime, SHOT_COOLDOWN_MS, floor_div_thousand]

/-! ### Recomputing `topmostEnemyOnLane` -/

theorem foldr_min_min (ys : List α) (a t : α) :
    ys.foldr min (min a t) = min a (ys.foldr min t) := by
  induction ys with
  | nil => rfl
  | cons y ys ih => rw [List.foldr_cons, List.foldr_cons, ih, min_left_comm]

theorem recordEnemy_getElem? (top : List α) (e : Enemy α) (i : Nat) :
    (recordEnemy top e)[i]? =
      if ⌊e.x / 80⌋ = (i : Int) then (top[i]?).map (min e.y) else top[i]? := by
  unfold recordEnemy
  simp only [SPAWN_LINE_WIDTH_PX]
  by_cases hneg : ⌊e.x / 80⌋ < 0
  · have hne : ⌊e.x / 80⌋ ≠ (i : Int) := by omega
    simp [hneg, hne]
  · simp only [hneg, if_false]
    by_cases hi : ⌊e.x / 80⌋ = (i : Int)
    · have hnat : (⌊e.x / 80⌋).toNat = i := by omega
      rw [hnat, if_pos hi]
      cases hget : top[i]? with
      | none => simp [hget]
      | some t =>
        have hlt : i < top.length := by
          by_contra hge
          rw [List.getElem?_eq_none (not_lt.mp hge)] at hget
          exact absurd hget (by simp)
        simp [List.getElem?_set_self, hlt]
    · have hnat : (⌊e.x / 80⌋).toNat ≠ i := by omega
      rw [if_neg hi]
      cases hget : top[(⌊e.x / 80⌋).toNat]? with
      | none => rfl
      | some t => exact List.getElem?_set_ne hnat

theorem foldl_recordEnemy_getElem? (es : List (Enemy α)) (top : List α) (i : Nat) :
    (es.foldl recordEnemy top)[i]? =
      (top[i]?).map (fun t =>
        ((es.filter (fun e => decide (⌊e.x / 80⌋ = (i : Int)))).map (fun e => e.y)).foldr min t) := by
  induction es generalizing top with
  | nil => simp
  | cons e es ih =>
    rw [List.foldl_cons, ih, recordEnemy_getElem?, List.filter_cons]
    by_cases hi : ⌊e.x / 80⌋ = (i : Int)
    · simp only [hi, decide_True, if_true, List.map_cons, List.foldr_cons, Option.map_map]
      congr 1
      funext t
      exact foldr_min_min _ _ _
    · simp [hi]

theorem updateTopmostEnemyOnLane_getElem? (w : World α) (i : Nat)
    (hi : i < w.gameState.topmostEnemyOnLane.length) :
    (updateTopmostEnemyOnLane w).gameState.topmostEnemyOnLane[i]?
      = some (laneTopmost i w.enemyGroup) := by
  simp only [updateTopmostEnemyOnLane, foldl_recordEnemy_getElem?, laneTopmost, CANVAS_HEIGHT]
  rw [List.getElem?_replicate]
  simp [hi]

theorem foldr_min_le_init (ys : List α) (t : α) : ys.foldr min t ≤ t := by
  induction ys with
  | nil => exact le_rfl
  | cons y ys ih => exact le_trans (min_le_right _ _) ih

theorem foldr_min_le_of_mem (ys : List α) (t y : α) (hy : y ∈ ys) : ys.foldr min t ≤ y := by
  induction ys with
  | nil => exact absurd hy (by simp)
  | cons z ys ih =>
    rcases List.mem_cons.mp hy with h | h
    · rw [h]
      exact min_le_left _ _
    · exact le_trans (min_le_right _ _) (ih h)

theorem foldr_min_attained (ys : List α) (t : α) : ys.foldr min t = t ∨ ys.foldr min t ∈ ys := by
  induction ys with
  | nil => exact Or.inl rfl
  | cons y ys ih =>
    rw [List.foldr_cons]
    rcases min_choice y (ys.foldr min t) with h | h
    · rw [h]
      exact Or.inr (List.mem_cons_self _ _)
    · rw [h]
      rcases ih with h' | h'
      · exact Or.inl h'
      · exact Or.inr (List.mem_cons_of_mem _ h')

/-- The value `laneTopmost` is the minimum of 600 and the `y` of the lane's enemies. -/
theorem laneTopmost_isMin (i : Nat) (es : List (Enemy α)) :
    laneTopmost i es ≤ 600 ∧
    (∀ e ∈ es, ⌊e.x / 80⌋ = (i : Int) → laneTopmost i es ≤ e.y) ∧
    (laneTopmost i es = 600 ∨
      ∃ e ∈ es, ⌊e.x / 80⌋ = (i : Int) ∧ laneTopmost i es = e.y) ∧
    ((∀ e ∈ es, ⌊e.x / 80⌋ ≠ (i : Int)) → laneTopmost i es = 600) := by
  refine ⟨foldr_min_le_init _ _, ?_, ?_, ?_⟩
  · intro e he hl
    apply foldr_min_le_of_mem
    exact List.mem_map.mpr ⟨e, List.mem_filter.mpr ⟨he, by simpa using hl⟩, rfl⟩
  · rcases foldr_min_attained
      ((es.filter (fun e => decide (⌊e.x / 80⌋ = (i : Int)))).map (fun e => e.y)) 600 with h | h
    · exact Or.inl h
    · obtain ⟨e, he, hy⟩ := List.mem_map.mp h
      obtain ⟨hmem, hl⟩ := List.mem_filter.mp he
      exact Or.inr ⟨e, hmem, by simpa using hl, hy.symm⟩
  · intro hnone
    have : es.filter (fun e => decide (⌊e.x / 80⌋ = (i : Int))) = [] := by
      rw [List.filter_eq_nil_iff]
      intro e he
      simpa using hnone e he
    simp [laneTopmost, this]

theorem floor_lane_centre (i : Nat) : ⌊(((i : α) + 0.5) * 80) / 80⌋ = (i : Int) := by
  rw [Int.floor_eq_iff]
  constructor
  · push_cast
    norm_num
  · push_cast
    norm_num

theorem laneSpawns_iff_laneSpawnDue (f : Frame α) (w wl : World α) (i : Nat)
    (hl : wl.gameState.lastSpawnTime = w.gameState.lastSpawnTime)
    (ht : wl.gameState.topmostEnemyOnLane =
      (updateTopmostEnemyOnLane w).gameState.topmostEnemyOnLane) :
    laneSpawns f i wl = true ↔ laneSpawnDue f w i := by
  unfold laneSpawns laneSpawnDue
  rw [hl, ht]
  split
  · rename_i t top h1 h2
    simp only [h1, h2, ENEMY_SPAWN_COOLDOWN_MS, MIN_TOPMOST_SPAWN_COORD,
      ENEMY_SPAWN_CHANCE_PER_FRAME, Bool.and_eq_true, decide_eq_true_eq, Option.some.injEq]
    constructor
    · rintro ⟨⟨a, b⟩, c⟩
      exact ⟨t, top, rfl, rfl, a, b, c⟩
    · rintro ⟨t', top', rfl, rfl, a, b, c⟩
      exact ⟨⟨a, b⟩, c⟩
  · rename_i hnone
    constructor
    · intro h
      exact absurd h (by simp)
    · rintro ⟨t, top, h1, h2, _⟩
      exact absurd h2 (hnone t top h1)

theorem lane_of_enemy_in_canvas (e : Enemy α) (hx : 0 ≤ e.x ∧ e.x < 800) :
    ∃ i : Nat, i < 10 ∧ ⌊e.x / 80⌋ = (i : Int) := by
  have h0 : (0 : Int) ≤ ⌊e.x / 80⌋ := Int.floor_nonneg.mpr (div_nonneg hx.1 (by norm_num))
  have h1 : ⌊e.x / 80⌋ < 10 := by
    rw [Int.floor_lt]
    push_cast
    rw [div_lt_iff₀ (by norm_num)]
    linarith [hx.2]
  exact ⟨(⌊e.x / 80⌋).toNat, by omega, by omega⟩

end Lemmas

/-! ## Claims -/

section Claims

variable {α : Type} [LinearOrderedField α] [FloorRing α]

/-- C1: for every clock reading `now` and every `lastShotTime`, `canShoot()` is
true exactly when `now - lastShotTime > 3000`; it is false whenever
`now - lastShotTime ≤ 3000`, in particular at the boundary
`now - lastShotTime = 3000`, and true for every strictly later `now`. -/
theorem canShoot_iff_cooldown_elapsed (now : Int) (g : GameState α) :
    (canShoot now g = true ↔ now - g.lastShotTime > 3000) ∧
    (now - g.lastShotTime ≤ 3000 → canShoot now g = false) ∧
    (now - g.lastShotTime = 3000 → canShoot now g = false) ∧
    (now - g.lastShotTime > 3000 → canShoot now g = true) := by
  refine ⟨?_, fun h => ?_, fun h => ?_, fun h => ?_⟩ <;>
    simp only [canShoot, SHOT_COOLDOWN_MS, decide_eq_true_eq, decide_eq_false_iff_not] <;>
    omega

/-- C2: in a Playing state, a tick of `update()` with the pointer up completes;
it creates a projectile (one more entry in `ballGroup`) and sets `lastShotTime`
to the current time exactly when `clickDragOngoing` holds, `canShoot()` holds
and the release `y` is strictly greater than 515.  In every other case no
projectile is added or removed (the existing ones only get their speed
renormalised by the same tick) and `lastShotTime` is unchanged.  In all cases
`clickDragOngoing` is false afterwards. -/
theorem update_pointer_up_fires_iff (m : JSMath α) (f : Frame α) (w : World α)
    (hplaying : w.gameState.gameOver = false) (hup : f.pointerIsDown = false) :
    ∃ w', update m f w = .ok w' ∧
      w'.gameState.clickDragOngoing = false ∧
      ((w.gameState.clickDragOngoing = true ∧ f.nowRelease - w.gameState.lastShotTime > 3000
          ∧ f.pointerY > 515) →
        w'.ballGroup = (w.ballGroup ++ [launchedBall m f.pointerX f.pointerY]).map (accelerateBall m)
          ∧ w'.ballGroup.length = w.ballGroup.length + 1
          ∧ w'.gameState.lastShotTime = f.nowShot) ∧
      (¬ (w.gameState.clickDragOngoing = true ∧ f.nowRelease - w.gameState.lastShotTime > 3000
          ∧ f.pointerY > 515) →
        w'.ballGroup = w.ballGroup.map (accelerateBall m)
          ∧ w'.ballGroup.length = w.ballGroup.length
          ∧ w'.ballGroup.map (fun b => (b.x, b.y)) = w.ballGroup.map (fun b => (b.x, b.y))
          ∧ w'.gameState.lastShotTime = w.gameState.lastShotTime) := by
  by_cases hc : w.gameState.clickDragOngoing = true ∧
      f.nowRelease - w.gameState.lastShotTime > 3000 ∧ f.pointerY > 515
  · have hstep := handleClickDrag_fire m f (updateText f w) hup hc.1 hc.2.1 hc.2.2
    refine ⟨_, by simp only [update, hplaying, hstep]; rw [updateArrowRotation_idle _ _ _ rfl]; rfl,
      ?_, ?_, ?_⟩
    · simp [spawnEnemies_clickDragOngoing, updateTopmostEnemyOnLane, accelerateBalls]
    · intro _
      simp [spawnEnemies_ballGroup, spawnEnemies_lastShotTime, updateTopmostEnemyOnLane,
        accelerateBalls, updateText_ballGroup, updateText_gameState]
    · intro hn
      exact absurd hc hn
  · have hstep := handleClickDrag_idle m f (updateText f w) hup hc
    refine ⟨_, by simp only [update, hplaying, hstep]; rw [updateArrowRotation_idle _ _ _ rfl]; rfl,
      ?_, ?_, ?_⟩
    · simp [spawnEnemies_clickDragOngoing, updateTopmostEnemyOnLane, accelerateBalls]
    · intro hn
      exact absurd hn hc
    · intro _
      have hxy : ∀ b : Ball α, ((accelerateBall m b).x, (accelerateBall m b).y) = (b.x, b.y) := by
        intro b
        simp only [accelerateBall]
        split <;> rfl
      simp [spawnEnemies_ballGroup, spawnEnemies_lastShotTime, updateTopmostEnemyOnLane,
        accelerateBalls, updateText_ballGroup, updateText_gameState, Function.comp_def, hxy]

/-- C2 at a sample input: in `aimingWorld`, the pointer is released at `(400, 600)`
at time 5000. -/
theorem update_pointer_up_fires_iff_witness :
    (aimingWorld : World ℝ).gameState.gameOver = false ∧
    (steadyFrame 5000 false 400 600 1 : Frame ℝ).pointerIsDown = false ∧
    ∃ w', update realMath (steadyFrame 5000 false 400 600 1) (aimingWorld : World ℝ) = .ok w' ∧
      w'.gameState.clickDragOngoing = false ∧
      (((aimingWorld : World ℝ).gameState.clickDragOngoing = true ∧
          (steadyFrame 5000 false 400 600 1 : Frame ℝ).nowRelease
            - (aimingWorld : World ℝ).gameState.lastShotTime > 3000
          ∧ (steadyFrame 5000 false 400 600 1 : Frame ℝ).pointerY > 515) →
        w'.ballGroup = ((aimingWorld : World ℝ).ballGroup ++
            [launchedBall realMath (steadyFrame 5000 false 400 600 1 : Frame ℝ).pointerX
              (steadyFrame 5000 false 400 600 1 : Frame ℝ).pointerY]).map (accelerateBall realMath)
          ∧ w'.ballGroup.length = (aimingWorld : World ℝ).ballGroup.length + 1
          ∧ w'.gameState.lastShotTime = (steadyFrame 5000 false 400 600 1 : Frame ℝ).nowShot) ∧
      (¬ ((aimingWorld : World ℝ).gameState.clickDragOngoing = true ∧
          (steadyFrame 5000 false 400 600 1 : Frame ℝ).nowRelease
            - (aimingWorld : World ℝ).gameState.lastShotTime > 3000
          ∧ (steadyFrame 5000 false 400 600 1 : Frame ℝ).pointerY > 515) →
        w'.ballGroup = (aimingWorld : World ℝ).ballGroup.map (accelerateBall realMath)
          ∧ w'.ballGroup.length = (aimingWorld : World ℝ).ballGroup.length
          ∧ w'.ballGroup.map (fun b => (b.x, b.y))
              = (aimingWorld : World ℝ).ballGroup.map (fun b => (b.x, b.y))
          ∧ w'.gameState.lastShotTime = (aimingWorld : World ℝ).gameState.lastShotTime) :=
  ⟨rfl, rfl, update_pointer_up_fires_iff realMath _ _ rfl rfl⟩

/-- C3: along every sequence of callbacks without a restart (frames of
`update`, pointer presses, collision callbacks, physics steps), started in any
world, with non-decreasing `Date.now()` readings and any random draws: two
spawn records of the same lane carry `lastSpawnTime` values that differ by at
least 1000 ms. -/
theorem lane_spawns_respect_cooldown (m : JSMath α) (es : List (Event α)) (w : World α)
    (hsession : Event.keyupR ∉ es)
    (hclock : (clockReadings es).Pairwise (fun a b => a ≤ b)) :
    (runSpawnLog m es w).Pairwise (fun a b => a.1 = b.1 → b.2 - a.2 ≥ 1000) := by
  have h := (runSpawnLog_spaced_aux m es hsession
    (fun f hf i hi => readings_lane_le es hclock f hf i hi) w).1
  exact h.imp (fun hab hl => by have := hab hl; omega)

/-- C3 at a sample input: `sampleSession` played from a fresh session. -/
theorem lane_spawns_respect_cooldown_witness :
    Event.keyupR ∉ (sampleSession : List (Event ℝ)) ∧
    (clockReadings (sampleSession : List (Event ℝ))).Pairwise (fun a b => a ≤ b) ∧
    (runSpawnLog realMath sampleSession (create : World ℝ)).Pairwise
      (fun a b => a.1 = b.1 → b.2 - a.2 ≥ 1000) :=
  ⟨by simp [sampleSession], by decide,
    lane_spawns_respect_cooldown realMath sampleSession create (by simp [sampleSession])
      (by decide)⟩

/-- C4: a Playing frame (with its arrow) completes and appends a list `created`
of enemies to `enemyGroup`; every created enemy sits on a lane centre; and for
every lane `i < 10`: if the three conditions hold, exactly one enemy is created
for the lane, at `((i + 0.5) * 80, 15)`, and `lastSpawnTime[i]` becomes the
current time; otherwise no enemy is created for the lane and `lastSpawnTime[i]`
is unchanged. -/
theorem update_spawns_lane_iff (m : JSMath α) (f : Frame α) (w : World α)
    (hplaying : w.gameState.gameOver = false) (harrow : w.arrowGroup ≠ []) :
    ∃ w' created, update m f w = .ok w' ∧ w'.enemyGroup = w.enemyGroup ++ created ∧
      (∀ e ∈ created, ∃ i : Nat, i < 10 ∧ e.x = ((i : α) + 0.5) * 80 ∧ e.y = 15) ∧
      ∀ i : Nat, i < 10 →
        (laneSpawnDue f w i →
          created.filter (fun e => decide (e.x = ((i : α) + 0.5) * 80)) =
            [{ x := ((i : α) + 0.5) * 80, y := 15, vx := 0
               vy := min 50 (max 10 ((w.gameState.score : α) / 10))
               collideWorldBounds := true }] ∧
          w'.gameState.lastSpawnTime[i]? = some (f.nowLaneSpawn i)) ∧
        (¬ laneSpawnDue f w i →
          created.filter (fun e => decide (e.x = ((i : α) + 0.5) * 80)) = [] ∧
          w'.gameState.lastSpawnTime[i]? = w.gameState.lastSpawnTime[i]?) := by
  obtain ⟨wl, hok, he, hs, hl, ht⟩ := update_playing m f w hplaying harrow
  have hdue : ∀ i, laneSpawns f i wl = true ↔ laneSpawnDue f w i := by
    intro i
    unfold laneSpawns laneSpawnDue
    rw [hl, ht]
    split
    · rename_i t top h1 h2
      simp only [h1, h2, ENEMY_SPAWN_COOLDOWN_MS, MIN_TOPMOST_SPAWN_COORD,
        ENEMY_SPAWN_CHANCE_PER_FRAME, Bool.and_eq_true, decide_eq_true_eq, Option.some.injEq]
      constructor
      · rintro ⟨⟨a, b⟩, c⟩
        exact ⟨t, top, rfl, rfl, a, b, c⟩
      · rintro ⟨t', top', rfl, rfl, a, b, c⟩
        exact ⟨⟨a, b⟩, c⟩
    · rename_i hnone
      constructor
      · intro h
        exact absurd h (by simp)
      · rintro ⟨t, top, h1, h2, _⟩
        exact absurd h2 (hnone t top h1)
  refine ⟨spawnEnemies f wl,
    ((List.range ENEMY_SPAWN_LANES).filter (fun i => laneSpawns f i wl)).map
      (fun i => spawnedEnemy i w.gameState.score), hok, ?_, ?_, ?_⟩
  · rw [spawnEnemies, foldl_considerLane_enemyGroup f _ (List.nodup_range _) wl, he, hs]
  · intro e hm
    obtain ⟨i, hi, rfl⟩ := List.mem_map.mp hm
    exact ⟨i, List.mem_range.mp (List.mem_filter.mp hi).1, rfl, rfl⟩
  · intro i hi
    have hmem : i ∈ List.range ENEMY_SPAWN_LANES := List.mem_range.mpr hi
    rw [spawned_filter_lane _ (List.nodup_range _), spawnEnemies,
      foldl_considerLane_lastSpawnTime f _ (List.nodup_range _) wl i, hl]
    constructor
    · intro h
      have hsp := (hdue i).mpr h
      simp [hmem, hsp, spawnedEnemy]
    · intro h
      have hsp : ¬ laneSpawns f i wl = true := fun hc => h ((hdue i).mp hc)
      simp [hsp]

/-- C4 at a sample input: a fresh session, one frame at time 2000 in which
every draw is 0. -/
theorem update_spawns_lane_iff_witness :
    (create : World ℝ).gameState.gameOver = false ∧ (create : World ℝ).arrowGroup ≠ [] ∧
    ∃ w' created, update realMath (steadyFrame 2000 false 0 0 0) (create : World ℝ) = .ok w' ∧
      w'.enemyGroup = (create : World ℝ).enemyGroup ++ created ∧
      (∀ e ∈ created, ∃ i : Nat, i < 10 ∧ e.x = ((i : ℝ) + 0.5) * 80 ∧ e.y = 15) ∧
      ∀ i : Nat, i < 10 →
        (laneSpawnDue (steadyFrame 2000 false 0 0 0) (create : World ℝ) i →
          created.filter (fun e => decide (e.x = ((i : ℝ) + 0.5) * 80)) =
            [{ x := ((i : ℝ) + 0.5) * 80, y := 15, vx := 0
               vy := min 50 (max 10 (((create : World ℝ).gameState.score : ℝ) / 10))
               collideWorldBounds := true }] ∧
          w'.gameState.lastSpawnTime[i]?
            = some ((steadyFrame 2000 false 0 0 0 : Frame ℝ).nowLaneSpawn i)) ∧
        (¬ laneSpawnDue (steadyFrame 2000 false 0 0 0) (create : World ℝ) i →
          created.filter (fun e => decide (e.x = ((i : ℝ) + 0.5) * 80)) = [] ∧
          w'.gameState.lastSpawnTime[i]? = (create : World ℝ).gameState.lastSpawnTime[i]?) :=
  ⟨rfl, by simp [create, startGame],
    update_spawns_lane_iff realMath _ _ rfl (by simp [create, startGame])⟩

/-- C5: in every world a projectile-enemy contact (`ballHitsEnemy`) adds exactly
10 to the score, and the two other contacts, projectile-floor (`ballHitsFloor`)
and enemy-floor (`enemyHitsFloor`), leave the score unchanged. -/
theorem score_changes_only_on_ball_enemy_contact (w : World α) (ball enemy : Nat) :
    (ballHitsEnemy enemy w).gameState.score = w.gameState.score + 10 ∧
    (ballHitsFloor ball w).gameState.score = w.gameState.score ∧
    (enemyHitsFloor w).gameState.score = w.gameState.score :=
  ⟨rfl, rfl, rfl⟩

/-- C6: in every world (whatever the score), `enemyHitsFloor` sets `gameOver`,
empties the floor, ball, enemy and arrow groups, and leaves the score,
`lastShotTime` and the per-lane spawn timers unchanged. -/
theorem enemyHitsFloor_ends_game (w : World α) :
    (enemyHitsFloor w).gameState.gameOver = true ∧
    (enemyHitsFloor w).floorGroup = [] ∧
    (enemyHitsFloor w).ballGroup = [] ∧
    (enemyHitsFloor w).enemyGroup = [] ∧
    (enemyHitsFloor w).arrowGroup = [] ∧
    (enemyHitsFloor w).gameState.score = w.gameState.score ∧
    (enemyHitsFloor w).gameState.lastShotTime = w.gameState.lastShotTime ∧
    (enemyHitsFloor w).gameState.lastSpawnTime = w.gameState.lastSpawnTime :=
  ⟨rfl, rfl, rfl, rfl, rfl, rfl, rfl, rfl⟩

/-- C7: the `keyup-R` handler, in a world with `gameOver = true` and empty
groups (as game-over leaves them), gives score 0, `lastShotTime` 0,
`clickDragOngoing` false, `gameOver` false, ten zero spawn timers, ten
`topmostEnemyOnLane` entries 600, exactly one floor and one arrow, no balls and
no enemies; this applies to the world any `enemyHitsFloor` leaves; and with
`gameOver = false` the handler changes nothing. -/
theorem keyupR_restarts_only_when_game_over (w : World α) :
    (w.gameState.gameOver = true → w.floorGroup = [] → w.ballGroup = [] →
      w.enemyGroup = [] → w.arrowGroup = [] → Restarted (keyupR w)) ∧
    Restarted (keyupR (enemyHitsFloor w)) ∧
    (w.gameState.gameOver = false → keyupR w = w) := by
  refine ⟨?_, ?_, ?_⟩
  · intro hover hf hb he ha
    simp [Restarted, keyupR, hover, startGame, initialGameState, hf, hb, he, ha,
      ENEMY_SPAWN_LANES, CANVAS_HEIGHT, FLOOR_X, FLOOR_Y, ARROW_X, ARROW_Y, List.replicate]
  · simp [Restarted, keyupR, enemyHitsFloor, startGame, initialGameState,
      ENEMY_SPAWN_LANES, CANVAS_HEIGHT, FLOOR_X, FLOOR_Y, ARROW_X, ARROW_Y, List.replicate]
  · intro hplaying
    simp [keyupR, hplaying]

theorem ballSpeed_accelerateBall (b : Ball ℝ) : ballSpeed (accelerateBall realMath b) = 150 := by
  have hnn : 0 ≤ b.vx * b.vx + b.vy * b.vy :=
    add_nonneg (mul_self_nonneg _) (mul_self_nonneg _)
  by_cases h0 : Real.sqrt (b.vx * b.vx + b.vy * b.vy) = 0
  · have : ballSpeed (accelerateBall realMath b) = Real.sqrt (150 * 150) := by
      simp only [ballSpeed, accelerateBall, realMath, h0, if_true, BALL_VELOCITY]
      congr 1
      ring
    rw [this, Real.sqrt_mul_self (by norm_num)]
  · have hs : 0 < Real.sqrt (b.vx * b.vx + b.vy * b.vy) :=
      lt_of_le_of_ne (Real.sqrt_nonneg _) (Ne.symm h0)
    have hsq : Real.sqrt (b.vx * b.vx + b.vy * b.vy) * Real.sqrt (b.vx * b.vx + b.vy * b.vy)
        = b.vx * b.vx + b.vy * b.vy := Real.mul_self_sqrt hnn
    have : ballSpeed (accelerateBall realMath b) = Real.sqrt (150 * 150) := by
      simp only [ballSpeed, accelerateBall, realMath, h0, if_false, BALL_VELOCITY]
      congr 1
      generalize Real.sqrt (b.vx * b.vx + b.vy * b.vy) = r at hs hsq h0
      field_simp
      rw [hsq]
      ring
    rw [this, Real.sqrt_mul_self (by norm_num)]

/-- C8: the velocity normalisation of `update()` over the reals.  A ball with
velocity `(0, 0)` gets `(0, -150)`; any other velocity `v` becomes
`(150 / |v|) * v`, a positive multiple of `v`; in both cases the new speed is
exactly 150 and the position is kept.  A Playing frame of `update()` applies
this step to every ball: its `ballGroup` afterwards is the old `ballGroup`,
followed by the ball fired in the frame (if any), each passed through
`accelerateBall`, so no ball is dropped and every ball has speed 150. -/
theorem accelerateBall_normalises (b : Ball ℝ) (f : Frame ℝ) (w : World ℝ) :
    ((b.vx = 0 ∧ b.vy = 0) →
      (accelerateBall realMath b).vx = 0 ∧ (accelerateBall realMath b).vy = -150) ∧
    (¬ (b.vx = 0 ∧ b.vy = 0) →
      0 < 150 / ballSpeed b ∧
      (accelerateBall realMath b).vx = 150 / ballSpeed b * b.vx ∧
      (accelerateBall realMath b).vy = 150 / ballSpeed b * b.vy) ∧
    ballSpeed (accelerateBall realMath b) = 150 ∧
    ((accelerateBall realMath b).x = b.x ∧ (accelerateBall realMath b).y = b.y) ∧
    (w.gameState.gameOver = false → w.arrowGroup ≠ [] →
      ∃ w', update realMath f w = .ok w' ∧
        w'.ballGroup = (w.ballGroup ++ firedBalls realMath f w).map (accelerateBall realMath) ∧
        (firedBalls realMath f w = [] ∨
          firedBalls realMath f w = [launchedBall realMath f.pointerX f.pointerY]) ∧
        w.ballGroup.length ≤ w'.ballGroup.length ∧
        (∀ b0 ∈ w.ballGroup, accelerateBall realMath b0 ∈ w'.ballGroup) ∧
        ∀ b' ∈ w'.ballGroup, ballSpeed b' = 150) := by
  have hnn : 0 ≤ b.vx * b.vx + b.vy * b.vy :=
    add_nonneg (mul_self_nonneg _) (mul_self_nonneg _)
  refine ⟨?_, ?_, ballSpeed_accelerateBall b, ?_, ?_⟩
  · rintro ⟨hx, hy⟩
    simp [accelerateBall, realMath, hx, hy, BALL_VELOCITY]
  · intro hv
    have hpos : 0 < b.vx * b.vx + b.vy * b.vy := by
      rcases not_and_or.mp hv with h | h
      · have := mul_self_pos.mpr h
        have := mul_self_nonneg b.vy
        linarith
      · have := mul_self_pos.mpr h
        have := mul_self_nonneg b.vx
        linarith
    have hs : 0 < Real.sqrt (b.vx * b.vx + b.vy * b.vy) := Real.sqrt_pos.mpr hpos
    refine ⟨div_pos (by norm_num) hs, ?_, ?_⟩ <;>
      simp [accelerateBall, realMath, ballSpeed, hs.ne', BALL_VELOCITY]
  · simp only [accelerateBall]
    split <;> exact ⟨rfl, rfl⟩
  · intro hplaying harrow
    obtain ⟨w', hok, hballs⟩ := update_playing_ballGroup realMath f w hplaying harrow
    refine ⟨w', hok, hballs, ?_, ?_, ?_, fun b' hb' => ?_⟩
    · unfold firedBalls
      split
      · exact Or.inr rfl
      · exact Or.inl rfl
    · rw [hballs]
      simp
    · intro b0 hb0
      rw [hballs]
      exact List.mem_map.mpr ⟨b0, List.mem_append_left _ hb0, rfl⟩
    · rw [hballs] at hb'
      obtain ⟨b0, _, rfl⟩ := List.mem_map.mp hb'
      exact ballSpeed_accelerateBall b0

theorem abs_arg_sub_arg_neg (z : ℂ) (hz : z ≠ 0) :
    |Complex.arg z - Complex.arg (-z)| = Real.pi := by
  have hpi := Real.pi_pos
  rcases lt_trichotomy z.im 0 with him | him | him
  · rw [Complex.arg_neg_eq_arg_add_pi_of_im_neg him]
    have : Complex.arg z - (Complex.arg z + Real.pi) = -Real.pi := by ring
    rw [this, abs_neg, abs_of_pos hpi]
  · have hre : z.re ≠ 0 := fun h => hz (Complex.ext h him)
    have hz' : z = ((z.re : ℝ) : ℂ) := Complex.ext rfl (by simpa using him)
    rcases lt_or_gt_of_ne hre with hneg | hpos
    · have h1 : Complex.arg z = Real.pi := by
        rw [hz']
        exact Complex.arg_ofReal_of_neg hneg
      have h2 : Complex.arg (-z) = 0 := by
        rw [hz', ← Complex.ofReal_neg]
        exact Complex.arg_ofReal_of_nonneg (by linarith)
      rw [h1, h2, sub_zero, abs_of_pos hpi]
    · have h1 : Complex.arg z = 0 := by
        rw [hz']
        exact Complex.arg_ofReal_of_nonneg hpos.le
      have h2 : Complex.arg (-z) = Real.pi := by
        rw [hz', ← Complex.ofReal_neg]
        exact Complex.arg_ofReal_of_neg (by linarith)
      rw [h1, h2, zero_sub, abs_neg, abs_of_pos hpi]
  · rw [Complex.arg_neg_eq_arg_sub_pi_of_im_pos him]
    have : Complex.arg z - (Complex.arg z - Real.pi) = Real.pi := by ring
    rw [this, abs_of_pos hpi]

theorem arg_straight_down : Complex.arg ⟨400 - 400, 500 - 600⟩ = -(Real.pi / 2) := by
  have h : (⟨400 - 400, 500 - 600⟩ : ℂ) = ((100 : ℝ) : ℂ) * (-Complex.I) := by
    apply Complex.ext
    · simp
    · simp
      norm_num
  rw [h, Complex.arg_real_mul _ (by norm_num : (0 : ℝ) < 100), Complex.arg_neg_I]

theorem arrowHeading_straight_down : arrowHeading realMath 400 600 = 360 := by
  have hpi := Real.pi_pos
  simp only [arrowHeading, realMath, ARROW_X, ARROW_Y, arg_straight_down]
  field_simp
  ring

theorem storedHeading_straight_down : storedHeading realMath 400 600 = 0 := by
  rw [storedHeading_eq_wrap, arrowHeading_straight_down]
  have h1 := WrapDegrees_sub_turns (0 : ℝ) (-1)
  have h2 : (0 : ℝ) - 360 * ((-1 : Int) : ℝ) = 360 := by
    push_cast
    ring
  rw [h2] at h1
  rw [h1]
  exact WrapDegrees_of_mem 0 (by norm_num) (by norm_num)

theorem arrowHeading_half_turn (px py : ℝ) (hP : ¬ (px = 400 ∧ py = 500)) :
    |arrowHeading realMath px py - arrowHeading realMath (2 * 400 - px) (2 * 500 - py)|
      = 180 := by
  have hz : (⟨px - 400, 500 - py⟩ : ℂ) ≠ 0 := by
    intro h
    have hre := congrArg Complex.re h
    have him := congrArg Complex.im h
    simp only [Complex.zero_re, Complex.zero_im] at hre him
    exact hP ⟨by linarith, by linarith⟩
  have hneg : (⟨2 * 400 - px - 400, 500 - (2 * 500 - py)⟩ : ℂ) = -⟨px - 400, 500 - py⟩ := by
    apply Complex.ext
    · simp only [Complex.neg_re]; ring
    · simp only [Complex.neg_im]; ring
  have hkey := abs_arg_sub_arg_neg _ hz
  simp only [arrowHeading, realMath, ARROW_X, ARROW_Y, hneg]
  have hpi := Real.pi_pos
  have : ∀ s t : ℝ, 90 - s * 180 / Real.pi + 180 - (90 - t * 180 / Real.pi + 180)
      = -((s - t) * (180 / Real.pi)) := by
    intro s t
    ring
  rw [this, abs_neg, abs_mul, hkey, abs_of_pos (div_pos (by norm_num) hpi)]
  field_simp

/-- C9, as stated, fails: the formula `heading(P)` is not the arrow angle that
`update()` computes.  In `aimingWorld`, with the pointer held down at
`P = (400, 600)`, the formula gives 360, but the frame leaves the arrow's
`angle` at 0, because assigning `angle` wraps the value into `[-180, 180)`. -/
theorem arrow_angle_is_wrapped_counterexample :
    arrowHeading realMath 400 600 = 360 ∧
    (aimingWorld : World ℝ).gameState.clickDragOngoing = true ∧
    (aimingWorld : World ℝ).gameState.gameOver = false ∧
    (∃ w', update realMath (steadyFrame 5000 true 400 600 1) (aimingWorld : World ℝ) = .ok w' ∧
      w'.arrowGroup = [{ x := 400, y := 500, angle := 0 }]) ∧
    (0 : ℝ) ≠ 360 := by
  refine ⟨arrowHeading_straight_down, rfl, rfl, ?_, by norm_num⟩
  obtain ⟨w', hok, harr⟩ := update_dragging_arrow realMath (steadyFrame 5000 true 400 600 1)
    (aimingWorld : World ℝ) { x := 400, y := 500, angle := 0 } [] rfl rfl rfl rfl
  refine ⟨w', hok, ?_⟩
  rw [harr]
  have h0 : storedHeading realMath (steadyFrame 5000 true 400 600 1 : Frame ℝ).pointerX
      (steadyFrame 5000 true 400 600 1 : Frame ℝ).pointerY = 0 :=
    storedHeading_straight_down
  rw [h0]

/-- C9, amended: over the reals, with
`heading(P) = 90 - atan2(500 - P.y, P.x - 400) * 180 / π + 180`, the arrow
angle that a dragging frame of `update()` stores for pointer `P` is
`heading(P)` wrapped into `[-180, 180)`: it differs from `heading(P)` by a whole
number of turns and depends on `P` alone.  For every `P` other than the anchor
`(400, 500)`, `heading(P)` and `heading(2 * anchor - P)` differ by exactly 180
degrees, and so do the two stored angles. -/
theorem arrowHeading_reflection (px py : ℝ) (f : Frame ℝ) (w : World ℝ)
    (a : Arrow ℝ) (rest : List (Arrow ℝ)) :
    arrowHeading realMath px py
      = 90 - Complex.arg ⟨px - 400, 500 - py⟩ * 180 / Real.pi + 180 ∧
    storedHeading realMath px py = WrapDegrees (arrowHeading realMath px py) ∧
    (-180 ≤ storedHeading realMath px py ∧ storedHeading realMath px py < 180) ∧
    (∃ k : Int, storedHeading realMath px py = arrowHeading realMath px py - 360 * (k : ℝ)) ∧
    (¬ (px = 400 ∧ py = 500) →
      |arrowHeading realMath px py - arrowHeading realMath (2 * 400 - px) (2 * 500 - py)|
        = 180 ∧
      |storedHeading realMath px py - storedHeading realMath (2 * 400 - px) (2 * 500 - py)|
        = 180) ∧
    (w.gameState.gameOver = false → f.pointerIsDown = true →
      w.gameState.clickDragOngoing = true → w.arrowGroup = a :: rest →
      ∃ w', update realMath f w = .ok w' ∧
        w'.arrowGroup = { a with angle := storedHeading realMath f.pointerX f.pointerY } :: rest) := by
  refine ⟨rfl, storedHeading_eq_wrap _ _ _, ?_, ?_,
    fun hP => ⟨arrowHeading_half_turn px py hP, ?_⟩,
    fun h1 h2 h3 h4 => update_dragging_arrow realMath f w a rest h1 h2 h3 h4⟩
  · rw [storedHeading_eq_wrap]
    exact WrapDegrees_mem _
  · exact ⟨_, by rw [storedHeading_eq_wrap, WrapDegrees_eq]⟩
  · rw [storedHeading_eq_wrap, storedHeading_eq_wrap]
    exact WrapDegrees_half_turn _ _ (arrowHeading_half_turn px py hP)

/-- C10, as stated, fails: in `aimingWorld` (drag in progress, `lastShotTime = 0`)
at time 5000 `canShoot()` holds, and releasing the pointer at `(400, 600)`
creates a projectile and moves `lastShotTime` from 0 to 5000. -/
theorem release_below_anchor_counterexample :
    (aimingWorld : World ℝ).gameState.clickDragOngoing = true ∧
    canShoot 5000 (aimingWorld : World ℝ).gameState = true ∧
    (aimingWorld : World ℝ).ballGroup.length = 0 ∧
    (aimingWorld : World ℝ).gameState.lastShotTime = 0 ∧
    ∃ w', update realMath (steadyFrame 5000 false 400 600 1) (aimingWorld : World ℝ) = .ok w' ∧
      w'.ballGroup.length = 1 ∧ w'.gameState.lastShotTime = 5000 := by
  obtain ⟨w', hok, hballs, hshot, _⟩ :=
    update_fires realMath (steadyFrame 5000 false 400 600 1) (aimingWorld : World ℝ) rfl rfl rfl
      (by decide) (by show (515 : ℝ) < 600; norm_num)
  refine ⟨rfl, by decide, rfl, rfl, w', hok, ?_, hshot⟩
  rw [hballs]
  rfl

/-- C10, amended: in a Playing world with a drag in progress and firing
permitted, releasing the pointer at `(400, 600)`, 100 units directly below the
anchor and below the floor line `y = 515`, fires a shot: the frame completes,
exactly one projectile (launched from the anchor) is added to `ballGroup`, and
`lastShotTime` is set to the current time. -/
theorem release_below_anchor_fires (m : JSMath α) (f : Frame α) (w : World α)
    (hplaying : w.gameState.gameOver = false) (hup : f.pointerIsDown = false)
    (hdrag : w.gameState.clickDragOngoing = true)
    (hshoot : canShoot f.nowRelease w.gameState = true)
    (hx : f.pointerX = 400) (hy : f.pointerY = 600) :
    ∃ w', update m f w = .ok w' ∧
      w'.ballGroup.length = w.ballGroup.length + 1 ∧
      w'.ballGroup = (w.ballGroup ++ [launchedBall m 400 600]).map (accelerateBall m) ∧
      w'.gameState.lastShotTime = f.nowShot := by
  have hcool : f.nowRelease - w.gameState.lastShotTime > 3000 := by
    simpa [canShoot, SHOT_COOLDOWN_MS] using hshoot
  obtain ⟨w', hok, hballs, hshot, _⟩ :=
    update_fires m f w hplaying hup hdrag hcool (by rw [hy]; norm_num)
  rw [hx, hy] at hballs
  exact ⟨w', hok, by rw [hballs]; simp, hballs, hshot⟩

/-- C10 (amended) at a sample input: `aimingWorld`, release at `(400, 600)` at
time 5000. -/
theorem release_below_anchor_fires_witness :
    (aimingWorld : World ℝ).gameState.gameOver = false ∧
    (steadyFrame 5000 false 400 600 1 : Frame ℝ).pointerIsDown = false ∧
    (aimingWorld : World ℝ).gameState.clickDragOngoing = true ∧
    canShoot (steadyFrame 5000 false 400 600 1 : Frame ℝ).nowRelease
      (aimingWorld : World ℝ).gameState = true ∧
    (steadyFrame 5000 false 400 600 1 : Frame ℝ).pointerX = 400 ∧
    (steadyFrame 5000 false 400 600 1 : Frame ℝ).pointerY = 600 ∧
    ∃ w', update realMath (steadyFrame 5000 false 400 600 1) (aimingWorld : World ℝ) = .ok w' ∧
      w'.ballGroup.length = (aimingWorld : World ℝ).ballGroup.length + 1 ∧
      w'.ballGroup = ((aimingWorld : World ℝ).ballGroup ++ [launchedBall realMath 400 600]).map
        (accelerateBall realMath) ∧
      w'.gameState.lastShotTime = (steadyFrame 5000 false 400 600 1 : Frame ℝ).nowShot :=
  ⟨rfl, rfl, rfl, by decide, rfl, rfl,
    release_below_anchor_fires realMath _ _ rfl rfl rfl (by decide) rfl rfl⟩

/-- C12: with `gameOver = true`, `update()` returns at once: for every clock
reading, pointer input and random draw the call completes with the world
unchanged (score, `lastShotTime`, `clickDragOngoing`, `lastSpawnTime`,
`topmostEnemyOnLane`, the four groups and the texts), so no spawn is recorded
and a frame callback is the identity. -/
theorem update_game_over_noop (m : JSMath α) (f : Frame α) (w : World α)
    (hover : w.gameState.gameOver = true) :
    update m f w = .ok w ∧ step m (Event.tick f) w = w ∧ updateSpawnLog m f w = [] := by
  refine ⟨?_, ?_, ?_⟩
  · simp [update, hover]
  · simp [step, update, hover]
  · simp [updateSpawnLog, hover]

/-- C12 at a sample input: the world `enemyHitsFloor` leaves after a fresh start. -/
theorem update_game_over_noop_witness :
    (enemyHitsFloor (create : World ℝ)).gameState.gameOver = true ∧
    (update realMath (steadyFrame 5000 false 400 600 0) (enemyHitsFloor (create : World ℝ))
        = .ok (enemyHitsFloor create) ∧
      step realMath (Event.tick (steadyFrame 5000 false 400 600 0))
        (enemyHitsFloor (create : World ℝ)) = enemyHitsFloor create ∧
      updateSpawnLog realMath (steadyFrame 5000 false 400 600 0)
        (enemyHitsFloor (create : World ℝ)) = []) :=
  ⟨rfl, update_game_over_noop realMath _ _ rfl⟩

/-- C14: `spawnEnemy` appends an enemy with velocity `(0, v(score))`,
`v(s) = min(50, max(10, s / 10))`; `v` is non-decreasing in `s` and satisfies
`10 ≤ v(s) ≤ 50` for every score. -/
theorem spawnEnemy_speed_monotone_clamped (x y : α) (w : World α) (s s1 s2 : Int) :
    (spawnEnemy x y w).enemyGroup = w.enemyGroup ++
      [{ x := x, y := y, vx := 0, vy := enemySpeed w.gameState.score,
         collideWorldBounds := true }] ∧
    (enemySpeed s : α) = min 50 (max 10 ((s : α) / 10)) ∧
    (s1 ≤ s2 → (enemySpeed s1 : α) ≤ enemySpeed s2) ∧
    (10 : α) ≤ enemySpeed s ∧ (enemySpeed s : α) ≤ 50 := by
  refine ⟨spawnEnemy_enemyGroup x y w, rfl, ?_, ?_, ?_⟩
  · intro h
    have hc : (s1 : α) / 10 ≤ (s2 : α) / 10 :=
      div_le_div_of_nonneg_right (Int.cast_le.mpr h) (by norm_num)
    exact min_le_min le_rfl (max_le_max le_rfl hc)
  · exact le_min (by norm_num) (le_max_left _ _)
  · exact min_le_left _ _

/-- C16: over the callbacks of a session (frame of `update`, pointer press,
`ballHitsFloor`, `ballHitsEnemy`, `enemyHitsFloor`, restart key, physics step):
`gameOver` goes from false to true only by `enemyHitsFloor` and from true to
false only by the restart key; every other callback leaves it unchanged;
`enemyHitsFloor` always sets it, the restart key always leaves it false, and a
freshly started session has `gameOver = false`. -/
theorem gameOver_transitions (m : JSMath α) (e : Event α) (w : World α) :
    (w.gameState.gameOver = false → (step m e w).gameState.gameOver = true →
      e = Event.enemyHitsFloor) ∧
    (w.gameState.gameOver = true → (step m e w).gameState.gameOver = false →
      e = Event.keyupR) ∧
    (e ≠ Event.enemyHitsFloor → e ≠ Event.keyupR →
      (step m e w).gameState.gameOver = w.gameState.gameOver) ∧
    (step m Event.enemyHitsFloor w).gameState.gameOver = true ∧
    (step m Event.keyupR w).gameState.gameOver = false ∧
    (startGame w).gameState.gameOver = false ∧
    (create : World α).gameState.gameOver = false := by
  have hkeep : e ≠ Event.enemyHitsFloor → e ≠ Event.keyupR →
      (step m e w).gameState.gameOver = w.gameState.gameOver := by
    intro h1 h2
    cases e with
    | tick f =>
      simp only [step, update]
      by_cases hover : w.gameState.gameOver = true
      · simp [hover]
      · have hfalse : w.gameState.gameOver = false := by simpa using hover
        simp only [hover, Bool.false_eq_true, if_false]
        have hfr := handleClickDrag_frame m f (updateText f w)
        cases hrot : updateArrowRotation m f (handleClickDrag m f (updateText f w)) with
        | none => simp only [hfr.2.2.2.2.1, updateText_gameState, hfalse]
        | some w3 =>
          have h3 := updateArrowRotation_gameState m f _ w3 hrot
          simp only
          rw [spawnEnemies_proj (fun v => v.gameState.gameOver) f
            (fun i v => by unfold considerLane spawnEnemy; split <;> rfl)]
          simp only [updateTopmostEnemyOnLane, accelerateBalls, h3, hfr.2.2.2.2.1,
            updateText_gameState, hfalse]
    | pointerDown =>
      simp only [step, arrowPointerDown]
      cases w.arrowGroup <;> rfl
    | ballHitsFloor b => rfl
    | ballHitsEnemy b => rfl
    | enemyHitsFloor => exact absurd rfl h1
    | keyupR => exact absurd rfl h2
    | physics bs es => rfl
  have hrestart : (step m Event.keyupR w).gameState.gameOver = false := by
    simp only [step, keyupR]
    by_cases hover : w.gameState.gameOver = true
    · simp [hover, startGame, initialGameState]
    · simp [hover]
  refine ⟨?_, ?_, hkeep, rfl, hrestart, rfl, rfl⟩
  · intro h0 h1
    by_contra hne
    by_cases hk : e = Event.keyupR
    · subst hk
      rw [hrestart] at h1
      exact absurd h1 (by simp)
    · rw [hkeep hne hk, h0] at h1
      exact absurd h1 (by simp)
  · intro h0 h1
    by_contra hne
    by_cases hk : e = Event.enemyHitsFloor
    · subst hk
      exact absurd h1 (by simp [step, enemyHitsFloor])
    · rw [hkeep hk hne, h0] at h1
      exact absurd h1 (by simp)

/-- C11, as stated, fails: in `aimingWorld` (fresh session, `lastShotTime = 0`,
drag in progress) a release at `(400, 600)`, below the floor line, at clock
time 0 creates no projectile and leaves `lastShotTime` at 0, because
`canShoot()` is false at time 0. -/
theorem fresh_session_fire_at_zero_counterexample :
    (aimingWorld : World ℝ).gameState.lastShotTime = 0 ∧
    (aimingWorld : World ℝ).gameState.clickDragOngoing = true ∧
    (aimingWorld : World ℝ).gameState.gameOver = false ∧
    canShoot 0 (aimingWorld : World ℝ).gameState = false ∧
    (515 : ℝ) < (steadyFrame 0 false 400 600 1 : Frame ℝ).pointerY ∧
    ∃ w', update realMath (steadyFrame 0 false 400 600 1) (aimingWorld : World ℝ) = .ok w' ∧
      w'.ballGroup = [] ∧ w'.gameState.lastShotTime = 0 := by
  obtain ⟨w', hok, hballs, hshot, _⟩ :=
    update_holds_fire realMath (steadyFrame 0 false 400 600 1) (aimingWorld : World ℝ) rfl rfl
      (fun h => absurd h.2.1 (by decide))
  refine ⟨rfl, rfl, rfl, by decide, by show (515 : ℝ) < 600; norm_num, w', hok, ?_, ?_⟩
  · rw [hballs]
    rfl
  · rw [hshot]
    rfl

/-- C11, amended: in a freshly started session (`lastShotTime = 0`), a fire
attempt with a drag in progress and the pointer released below the floor line
(`y > 515`) creates a projectile exactly when the clock reading `now` is
greater than 3000 (as every `Date.now()` reading of a real clock is); at a
reading `now ≤ 3000`, in particular at `now = 0`, no projectile is created and
`lastShotTime` stays 0. -/
theorem fresh_session_fire_iff_clock_past_cooldown (m : JSMath α) (f : Frame α) (w : World α)
    (hplaying : w.gameState.gameOver = false) (hfresh : w.gameState.lastShotTime = 0)
    (hdrag : w.gameState.clickDragOngoing = true) (hup : f.pointerIsDown = false)
    (hy : f.pointerY > 515) :
    ∃ w', update m f w = .ok w' ∧
      (f.nowRelease > 3000 →
        w'.ballGroup.length = w.ballGroup.length + 1 ∧
        w'.gameState.lastShotTime = f.nowShot) ∧
      (f.nowRelease ≤ 3000 →
        w'.ballGroup.length = w.ballGroup.length ∧ w'.gameState.lastShotTime = 0) := by
  by_cases hnow : f.nowRelease > 3000
  · obtain ⟨w', hok, hballs, hshot, _⟩ :=
      update_fires m f w hplaying hup hdrag (by rw [hfresh]; omega) hy
    refine ⟨w', hok, fun _ => ⟨by rw [hballs]; simp, hshot⟩, fun h => ?_⟩
    omega
  · obtain ⟨w', hok, hballs, hshot, _⟩ :=
      update_holds_fire m f w hplaying hup (fun h => hnow (by have := h.2.1; rw [hfresh] at this; omega))
    refine ⟨w', hok, fun h => absurd h hnow, fun _ => ⟨by rw [hballs]; simp, ?_⟩⟩
    rw [hshot, hfresh]

/-- C11 (amended) at a sample input: `aimingWorld`, release at `(400, 600)` at
clock time 0. -/
theorem fresh_session_fire_iff_clock_past_cooldown_witness :
    (aimingWorld : World ℝ).gameState.gameOver = false ∧
    (aimingWorld : World ℝ).gameState.lastShotTime = 0 ∧
    (aimingWorld : World ℝ).gameState.clickDragOngoing = true ∧
    (steadyFrame 0 false 400 600 1 : Frame ℝ).pointerIsDown = false ∧
    (steadyFrame 0 false 400 600 1 : Frame ℝ).pointerY > 515 ∧
    ∃ w', update realMath (steadyFrame 0 false 400 600 1) (aimingWorld : World ℝ) = .ok w' ∧
      ((steadyFrame 0 false 400 600 1 : Frame ℝ).nowRelease > 3000 →
        w'.ballGroup.length = (aimingWorld : World ℝ).ballGroup.length + 1 ∧
        w'.gameState.lastShotTime = (steadyFrame 0 false 400 600 1 : Frame ℝ).nowShot) ∧
      ((steadyFrame 0 false 400 600 1 : Frame ℝ).nowRelease ≤ 3000 →
        w'.ballGroup.length = (aimingWorld : World ℝ).ballGroup.length ∧
        w'.gameState.lastShotTime = 0) :=
  ⟨rfl, rfl, rfl, rfl, by show (600 : ℝ) > 515; norm_num,
    fresh_session_fire_iff_clock_past_cooldown realMath _ _ rfl rfl rfl rfl
      (by show (600 : ℝ) > 515; norm_num)⟩

theorem aim_abs (x y : ℝ) :
    Complex.abs ⟨x - 400, 500 - y⟩ = Real.sqrt ((400 - x) ^ 2 + (500 - y) ^ 2) := by
  rw [Complex.abs_apply, Complex.normSq_mk]
  congr 1
  ring

theorem aim_abs_pos (x y : ℝ) (hy : y > 515) :
    0 < Real.sqrt ((400 - x) ^ 2 + (500 - y) ^ 2) := by
  apply Real.sqrt_pos.mpr
  have h1 : 0 < (500 - y) ^ 2 := by
    have : 500 - y ≠ 0 := by linarith
    positivity
  have h2 : 0 ≤ (400 - x) ^ 2 := sq_nonneg _
  linarith

theorem aim_ne_zero (x y : ℝ) (hy : y > 515) : (⟨x - 400, 500 - y⟩ : ℂ) ≠ 0 := by
  intro h
  have him := congrArg Complex.im h
  simp only [Complex.zero_im] at him
  linarith

theorem launchedBall_velocity (x y : ℝ) (hy : y > 515) :
    (launchedBall realMath x y).vx
      = 150 * (400 - x) / Real.sqrt ((400 - x) ^ 2 + (500 - y) ^ 2) ∧
    (launchedBall realMath x y).vy
      = 150 * (500 - y) / Real.sqrt ((400 - x) ^ 2 + (500 - y) ^ 2) := by
  have hz := aim_ne_zero x y hy
  constructor
  · simp only [launchedBall, realMath, Complex.cos_arg hz, aim_abs]
    ring
  · simp only [launchedBall, realMath, Complex.sin_arg, aim_abs]
    ring

theorem ballSpeed_launchedBall (x y : ℝ) (hy : y > 515) :
    ballSpeed (launchedBall realMath x y) = 150 := by
  have hd := aim_abs_pos x y hy
  obtain ⟨hvx, hvy⟩ := launchedBall_velocity x y hy
  have hsq : Real.sqrt ((400 - x) ^ 2 + (500 - y) ^ 2)
      * Real.sqrt ((400 - x) ^ 2 + (500 - y) ^ 2) = (400 - x) ^ 2 + (500 - y) ^ 2 :=
    Real.mul_self_sqrt (by positivity)
  have : ballSpeed (launchedBall realMath x y) = Real.sqrt (150 * 150) := by
    unfold ballSpeed
    rw [hvx, hvy]
    congr 1
    generalize Real.sqrt ((400 - x) ^ 2 + (500 - y) ^ 2) = d at hd hsq
    field_simp
    rw [hsq]
    ring
  rw [this, Real.sqrt_mul_self (by norm_num)]

/-- The normalisation of the frame leaves a freshly launched ball as it is. -/
theorem accelerateBall_launchedBall (x y : ℝ) (hy : y > 515) :
    accelerateBall realMath (launchedBall realMath x y) = launchedBall realMath x y := by
  have hs : Real.sqrt ((launchedBall realMath x y).vx * (launchedBall realMath x y).vx
      + (launchedBall realMath x y).vy * (launchedBall realMath x y).vy) = 150 :=
    ballSpeed_launchedBall x y hy
  have hne : (150 : ℝ) ≠ 0 := by norm_num
  simp only [accelerateBall, realMath, BALL_VELOCITY] at hs ⊢
  rw [hs, if_neg hne, div_self hne, one_mul, one_mul]

/-- Over the reals, the frame that accepts a release at `(x, y)`, `y > 515`,
completes and appends exactly the launched ball, unchanged by the
normalisation, to the normalised old balls. -/
theorem update_fires_launchedBall (x y : ℝ) (hy : y > 515) (f : Frame ℝ) (w : World ℝ)
    (hplaying : w.gameState.gameOver = false) (hup : f.pointerIsDown = false)
    (hdrag : w.gameState.clickDragOngoing = true)
    (hcool : f.nowRelease - w.gameState.lastShotTime > 3000)
    (hx : f.pointerX = x) (hfy : f.pointerY = y) :
    ∃ w', update realMath f w = .ok w' ∧
      w'.ballGroup = w.ballGroup.map (accelerateBall realMath) ++ [launchedBall realMath x y] := by
  obtain ⟨w', hok, hballs, _, _⟩ :=
    update_fires realMath f w hplaying hup hdrag hcool (by rw [hfy]; exact hy)
  refine ⟨w', hok, ?_⟩
  rw [hballs, hx, hfy, List.map_append, List.map_cons, List.map_nil,
    accelerateBall_launchedBall x y hy]

theorem trig_storedHeading (x y : ℝ) :
    Real.sin (storedHeading realMath x y * Real.pi / 180)
      = Real.sin (arrowHeading realMath x y * Real.pi / 180) ∧
    Real.cos (storedHeading realMath x y * Real.pi / 180)
      = Real.cos (arrowHeading realMath x y * Real.pi / 180) := by
  have hk : storedHeading realMath x y * Real.pi / 180
      = arrowHeading realMath x y * Real.pi / 180
        - ((⌊(arrowHeading realMath x y + 180) / 360⌋ : Int) : ℝ) * (2 * Real.pi) := by
    rw [storedHeading_eq_wrap, WrapDegrees_eq]
    ring
  rw [hk]
  exact ⟨Real.sin_sub_int_mul_two_pi _ _, Real.cos_sub_int_mul_two_pi _ _⟩

/-- C13: over the reals, for every accepted release point `P = (x, y)`
(`y > 515`) and anchor `A = (400, 500)`, the created projectile's velocity
`(-150 cos t, 150 sin t)`, `t = atan2(500 - y, x - 400)`, equals
`150 * (A - P) / |A - P|`: it has magnitude 150 and is a positive multiple of
`A - P`, so it points directly away from the pointer.  It also equals
`150 * (sin h, -cos h)` for the arrow heading `h` (in degrees) that `update()`
shows for the same pointer, both for the formula value of `h` and for the
wrapped value a dragging frame stores in the arrow.  The projectile in question
is the one `clickDragReleased(x, y)` appends to `ballGroup`, and the one the
accepting frame of `update()` leaves at the end of `ballGroup`. -/
theorem launch_velocity_points_away (x y : ℝ) (hy : y > 515) :
    0 < Real.sqrt ((400 - x) ^ 2 + (500 - y) ^ 2) ∧
    (launchedBall realMath x y).vx
      = 150 * (400 - x) / Real.sqrt ((400 - x) ^ 2 + (500 - y) ^ 2) ∧
    (launchedBall realMath x y).vy
      = 150 * (500 - y) / Real.sqrt ((400 - x) ^ 2 + (500 - y) ^ 2) ∧
    ballSpeed (launchedBall realMath x y) = 150 ∧
    (launchedBall realMath x y).vx
      = 150 * Real.sin (arrowHeading realMath x y * Real.pi / 180) ∧
    (launchedBall realMath x y).vy
      = 150 * -Real.cos (arrowHeading realMath x y * Real.pi / 180) ∧
    (launchedBall realMath x y).vx
      = 150 * Real.sin (storedHeading realMath x y * Real.pi / 180) ∧
    (launchedBall realMath x y).vy
      = 150 * -Real.cos (storedHeading realMath x y * Real.pi / 180) ∧
    (∀ (now : Int) (w : World ℝ),
      clickDragReleased realMath now x y w =
        { w with
          ballGroup := w.ballGroup ++ [launchedBall realMath x y]
          gameState := { w.gameState with lastShotTime := now } }) ∧
    (∀ (f : Frame ℝ) (w : World ℝ),
      w.gameState.gameOver = false → f.pointerIsDown = false →
      w.gameState.clickDragOngoing = true →
      f.nowRelease - w.gameState.lastShotTime > 3000 →
      f.pointerX = x → f.pointerY = y →
      ∃ w', update realMath f w = .ok w' ∧
        w'.ballGroup
          = w.ballGroup.map (accelerateBall realMath) ++ [launchedBall realMath x y]) ∧
    (∀ (f : Frame ℝ) (w : World ℝ) (a : Arrow ℝ) (rest : List (Arrow ℝ)),
      w.gameState.gameOver = false → f.pointerIsDown = true →
      w.gameState.clickDragOngoing = true → w.arrowGroup = a :: rest →
      f.pointerX = x → f.pointerY = y →
      ∃ w', update realMath f w = .ok w' ∧
        w'.arrowGroup = { a with angle := storedHeading realMath x y } :: rest) := by
  have hd := aim_abs_pos x y hy
  obtain ⟨hvx, hvy⟩ := launchedBall_velocity x y hy
  obtain ⟨hsin, hcos⟩ := trig_storedHeading x y
  have hpi := Real.pi_pos
  have hh : arrowHeading realMath x y * Real.pi / 180
      = Real.pi / 2 - Complex.arg ⟨x - 400, 500 - y⟩ + Real.pi := by
    simp only [arrowHeading, realMath, ARROW_X, ARROW_Y]
    field_simp
    ring
  have h5 : (launchedBall realMath x y).vx
      = 150 * Real.sin (arrowHeading realMath x y * Real.pi / 180) := by
    rw [hh, Real.sin_add_pi, Real.sin_pi_div_two_sub]
    simp only [launchedBall, realMath]
    ring
  have h6 : (launchedBall realMath x y).vy
      = 150 * -Real.cos (arrowHeading realMath x y * Real.pi / 180) := by
    rw [hh, Real.cos_add_pi, Real.cos_pi_div_two_sub]
    simp only [launchedBall, realMath]
    ring
  refine ⟨hd, hvx, hvy, ballSpeed_launchedBall x y hy, h5, h6, by rw [hsin]; exact h5,
    by rw [hcos]; exact h6, fun now w => clickDragReleased_below realMath now x y w hy,
    fun f w h1 h2 h3 h4 h5 h6 => update_fires_launchedBall x y hy f w h1 h2 h3 h4 h5 h6, ?_⟩
  intro f w a rest h1 h2 h3 h4 hfx hfy
  obtain ⟨w', hok, harr⟩ := update_dragging_arrow realMath f w a rest h1 h2 h3 h4
  exact ⟨w', hok, by rw [harr, hfx, hfy]⟩

/-- C13 at a sample input: release at `(400, 600)`. -/
theorem launch_velocity_points_away_witness :
    (600 : ℝ) > 515 ∧
    (0 < Real.sqrt ((400 - (400 : ℝ)) ^ 2 + (500 - (600 : ℝ)) ^ 2) ∧
    (launchedBall realMath 400 600).vx
      = 150 * (400 - 400) / Real.sqrt ((400 - (400 : ℝ)) ^ 2 + (500 - (600 : ℝ)) ^ 2) ∧
    (launchedBall realMath 400 600).vy
      = 150 * (500 - 600) / Real.sqrt ((400 - (400 : ℝ)) ^ 2 + (500 - (600 : ℝ)) ^ 2) ∧
    ballSpeed (launchedBall realMath 400 600) = 150 ∧
    (launchedBall realMath 400 600).vx
      = 150 * Real.sin (arrowHeading realMath 400 600 * Real.pi / 180) ∧
    (launchedBall realMath 400 600).vy
      = 150 * -Real.cos (arrowHeading realMath 400 600 * Real.pi / 180) ∧
    (launchedBall realMath 400 600).vx
      = 150 * Real.sin (storedHeading realMath 400 600 * Real.pi / 180) ∧
    (launchedBall realMath 400 600).vy
      = 150 * -Real.cos (storedHeading realMath 400 600 * Real.pi / 180) ∧
    (∀ (now : Int) (w : World ℝ),
      clickDragReleased realMath now 400 600 w =
        { w with
          ballGroup := w.ballGroup ++ [launchedBall realMath 400 600]
          gameState := { w.gameState with lastShotTime := now } }) ∧
    (∀ (f : Frame ℝ) (w : World ℝ),
      w.gameState.gameOver = false → f.pointerIsDown = false →
      w.gameState.clickDragOngoing = true →
      f.nowRelease - w.gameState.lastShotTime > 3000 →
      f.pointerX = 400 → f.pointerY = 600 →
      ∃ w', update realMath f w = .ok w' ∧
        w'.ballGroup
          = w.ballGroup.map (accelerateBall realMath) ++ [launchedBall realMath 400 600]) ∧
    (∀ (f : Frame ℝ) (w : World ℝ) (a : Arrow ℝ) (rest : List (Arrow ℝ)),
      w.gameState.gameOver = false → f.pointerIsDown = true →
      w.gameState.clickDragOngoing = true → w.arrowGroup = a :: rest →
      f.pointerX = 400 → f.pointerY = 600 →
      ∃ w', update realMath f w = .ok w' ∧
        w'.arrowGroup = { a with angle := storedHeading realMath 400 600 } :: rest)) ∧
    (∃ w', update realMath (steadyFrame 5000 false 400 600 1) (aimingWorld : World ℝ) = .ok w' ∧
      w'.ballGroup = (aimingWorld : World ℝ).ballGroup.map (accelerateBall realMath)
        ++ [launchedBall realMath 400 600]) :=
  ⟨by norm_num, launch_velocity_points_away 400 600 (by norm_num),
    (launch_velocity_points_away 400 600 (by norm_num)).2.2.2.2.2.2.2.2.2.1
      (steadyFrame 5000 false 400 600 1) aimingWorld rfl rfl rfl (by decide) rfl rfl⟩

/-- C18: over the reals every accepted shot is launched strictly upward: for
every release point `(x, y)` with `y > 515` (hence `y > 500`) the vertical
velocity `150 * sin(atan2(500 - y, x - 400))` of the created projectile is
strictly negative, and it is still strictly negative after the velocity
normalisation of the same frame.  The projectile in question is the one
`clickDragReleased(x, y)` appends to `ballGroup`: the call adds exactly one
ball, with that vertical velocity, and the accepting frame of `update()` leaves
it last in `ballGroup`, still moving upward. -/
theorem launch_is_upward (x y : ℝ) (hy : y > 515) :
    y > 500 ∧
    (launchedBall realMath x y).vy
      = 150 * Real.sin (Complex.arg ⟨x - 400, 500 - y⟩) ∧
    (launchedBall realMath x y).vy < 0 ∧
    (accelerateBall realMath (launchedBall realMath x y)).vy < 0 ∧
    (∀ (now : Int) (w : World ℝ),
      ∃ b, (clickDragReleased realMath now x y w).ballGroup = w.ballGroup ++ [b] ∧
        b.vy = 150 * Real.sin (Complex.arg ⟨x - 400, 500 - y⟩) ∧ b.vy < 0) ∧
    (∀ (f : Frame ℝ) (w : World ℝ),
      w.gameState.gameOver = false → f.pointerIsDown = false →
      w.gameState.clickDragOngoing = true →
      f.nowRelease - w.gameState.lastShotTime > 3000 →
      f.pointerX = x → f.pointerY = y →
      ∃ w' b, update realMath f w = .ok w' ∧
        w'.ballGroup = w.ballGroup.map (accelerateBall realMath) ++ [b] ∧
        b.vy = 150 * Real.sin (Complex.arg ⟨x - 400, 500 - y⟩) ∧ b.vy < 0) := by
  have hd := aim_abs_pos x y hy
  obtain ⟨_, hvy⟩ := launchedBall_velocity x y hy
  have hneg : (launchedBall realMath x y).vy < 0 := by
    rw [hvy]
    apply div_neg_of_neg_of_pos _ hd
    linarith
  refine ⟨by linarith, rfl, hneg, ?_, ?_, ?_⟩
  · simp only [accelerateBall, realMath]
    split
    · simp [BALL_VELOCITY]
    · rename_i hs
      have hpos : 0 < Real.sqrt ((launchedBall realMath x y).vx * (launchedBall realMath x y).vx
          + (launchedBall realMath x y).vy * (launchedBall realMath x y).vy) :=
        lt_of_le_of_ne (Real.sqrt_nonneg _) (Ne.symm hs)
      exact mul_neg_of_pos_of_neg (div_pos (by norm_num [BALL_VELOCITY]) hpos) hneg
  · intro now w
    refine ⟨launchedBall realMath x y, ?_, rfl, hneg⟩
    rw [clickDragReleased_below realMath now x y w hy]
  · intro f w h1 h2 h3 h4 h5 h6
    obtain ⟨w', hok, hballs⟩ := update_fires_launchedBall x y hy f w h1 h2 h3 h4 h5 h6
    exact ⟨w', launchedBall realMath x y, hok, hballs, rfl, hneg⟩

/-- C18 at a sample input: release at `(400, 600)`. -/
theorem launch_is_upward_witness :
    (600 : ℝ) > 515 ∧
    ((600 : ℝ) > 500 ∧
    (launchedBall realMath 400 600).vy
      = 150 * Real.sin (Complex.arg ⟨400 - 400, 500 - 600⟩) ∧
    (launchedBall realMath 400 600).vy < 0 ∧
    (accelerateBall realMath (launchedBall realMath 400 600)).vy < 0 ∧
    (∀ (now : Int) (w : World ℝ),
      ∃ b, (clickDragReleased realMath now 400 600 w).ballGroup = w.ballGroup ++ [b] ∧
        b.vy = 150 * Real.sin (Complex.arg ⟨400 - 400, 500 - 600⟩) ∧ b.vy < 0) ∧
    (∀ (f : Frame ℝ) (w : World ℝ),
      w.gameState.gameOver = false → f.pointerIsDown = false →
      w.gameState.clickDragOngoing = true →
      f.nowRelease - w.gameState.lastShotTime > 3000 →
      f.pointerX = 400 → f.pointerY = 600 →
      ∃ w' b, update realMath f w = .ok w' ∧
        w'.ballGroup = w.ballGroup.map (accelerateBall realMath) ++ [b] ∧
        b.vy = 150 * Real.sin (Complex.arg ⟨400 - 400, 500 - 600⟩) ∧ b.vy < 0)) ∧
    (∃ w' b, update realMath (steadyFrame 5000 false 400 600 1) (aimingWorld : World ℝ) = .ok w' ∧
      w'.ballGroup = (aimingWorld : World ℝ).ballGroup.map (accelerateBall realMath) ++ [b] ∧
      b.vy = 150 * Real.sin (Complex.arg ⟨400 - 400, 500 - 600⟩) ∧ b.vy < 0) :=
  ⟨by norm_num, launch_is_upward 400 600 (by norm_num),
    (launch_is_upward 400 600 (by norm_num)).2.2.2.2.2
      (steadyFrame 5000 false 400 600 1) aimingWorld rfl rfl rfl (by decide) rfl rfl⟩

/-- C19: the code at the failing input.  In `cooledWorld` (last shot at
1700000000000) with the readings of `boundaryFrame`, `canShoot()` on line 114
reads 1700000003000 and is false, so `update()` displays the cooldown, and
`lastShotTime` is not after any reading; line 115 then reads 1700000003001 and
computes `cooldownTime = floor(-1 / 1000) + 1 = 0`, outside `1 .. 4`: the frame
completes and shows "Cooldown until next shot: 0 seconds.". -/
theorem cooldown_display_race :
    canShoot (boundaryFrame : Frame ℝ).nowInfo (cooledWorld : World ℝ).gameState = false ∧
    (cooledWorld : World ℝ).gameState.lastShotTime ≤ (boundaryFrame : Frame ℝ).nowInfo ∧
    (boundaryFrame : Frame ℝ).nowInfo ≤ (boundaryFrame : Frame ℝ).nowCooldown ∧
    cooldownTime (boundaryFrame : Frame ℝ).nowCooldown (cooledWorld : World ℝ).gameState = 0 ∧
    ¬ (1 ≤ cooldownTime (boundaryFrame : Frame ℝ).nowCooldown
      (cooledWorld : World ℝ).gameState) ∧
    (updateText (boundaryFrame : Frame ℝ) (cooledWorld : World ℝ)).infoText
      = "Cooldown until next shot: 0 seconds." ∧
    ∃ w', update realMath (boundaryFrame : Frame ℝ) (cooledWorld : World ℝ) = .ok w' ∧
      w'.infoText = "Cooldown until next shot: 0 seconds." := by
  have hct : cooldownTime (boundaryFrame : Frame ℝ).nowCooldown
      (cooledWorld : World ℝ).gameState = 0 := by
    rw [cooldownTime_eq]
    decide
  have hcan : canShoot (boundaryFrame : Frame ℝ).nowInfo (cooledWorld : World ℝ).gameState
      = false := by decide
  have htext : (updateText (boundaryFrame : Frame ℝ) (cooledWorld : World ℝ)).infoText
      = "Cooldown until next shot: 0 seconds." := by
    simp only [updateText, hcan, hct]
    decide
  refine ⟨hcan, by decide, by decide, hct, by rw [hct]; decide, htext, ?_⟩
  obtain ⟨w', hok, hinfo⟩ := update_playing_infoText realMath (boundaryFrame : Frame ℝ)
    (cooledWorld : World ℝ) rfl (by simp [cooledWorld, create, startGame])
  exact ⟨w', hok, by rw [hinfo, htext]⟩

/-- The countdown when lines 114 and 115 read the same clock value `now`: with
`canShoot()` false and `lastShotTime ≤ now`, the displayed
`cooldownTime = floor((3000 - (now - lastShotTime)) / 1000) + 1` is an integer
with `1 ≤ cooldownTime ≤ 4`; it is 4 exactly when `now = lastShotTime` and
lies in `1 .. 3` at every later instant of the cooldown; the info text of the
frame is the countdown sentence with that number. -/
theorem cooldownTime_between_one_and_four (f : Frame α) (w : World α)
    (hclock : f.nowCooldown = f.nowInfo)
    (hcool : canShoot f.nowInfo w.gameState = false)
    (hpast : w.gameState.lastShotTime ≤ f.nowInfo) :
    cooldownTime f.nowCooldown w.gameState
      = (3000 - (f.nowInfo - w.gameState.lastShotTime)) / 1000 + 1 ∧
    1 ≤ cooldownTime f.nowCooldown w.gameState ∧
    cooldownTime f.nowCooldown w.gameState ≤ 4 ∧
    (cooldownTime f.nowCooldown w.gameState = 4 ↔ f.nowInfo = w.gameState.lastShotTime) ∧
    (f.nowInfo ≠ w.gameState.lastShotTime → cooldownTime f.nowCooldown w.gameState ≤ 3) ∧
    (updateText f w).infoText =
      "Cooldown until next shot: " ++ toString (cooldownTime f.nowCooldown w.gameState)
        ++ " second" ++ (if cooldownTime f.nowCooldown w.gameState = 1 then "" else "s")
        ++ "." := by
  have hle : f.nowInfo - w.gameState.lastShotTime ≤ 3000 := by
    simpa [canShoot, SHOT_COOLDOWN_MS] using hcool
  rw [cooldownTime_eq, hclock]
  refine ⟨rfl, by omega, by omega, by omega, fun h => by omega, ?_⟩
  simp [updateText, hcool, cooldownTime_eq, hclock]

/-- The single-reading countdown at a sample input: a fresh session, one second
after time 0. -/
theorem cooldownTime_between_one_and_four_witness :
    (steadyFrame 1000 false 0 0 1 : Frame ℝ).nowCooldown
      = (steadyFrame 1000 false 0 0 1 : Frame ℝ).nowInfo ∧
    canShoot (steadyFrame 1000 false 0 0 1 : Frame ℝ).nowInfo (create : World ℝ).gameState
      = false ∧
    (create : World ℝ).gameState.lastShotTime ≤ (steadyFrame 1000 false 0 0 1 : Frame ℝ).nowInfo ∧
    (cooldownTime (steadyFrame 1000 false 0 0 1 : Frame ℝ).nowCooldown (create : World ℝ).gameState
      = (3000 - ((steadyFrame 1000 false 0 0 1 : Frame ℝ).nowInfo
          - (create : World ℝ).gameState.lastShotTime)) / 1000 + 1 ∧
    1 ≤ cooldownTime (steadyFrame 1000 false 0 0 1 : Frame ℝ).nowCooldown
      (create : World ℝ).gameState ∧
    cooldownTime (steadyFrame 1000 false 0 0 1 : Frame ℝ).nowCooldown
      (create : World ℝ).gameState ≤ 4 ∧
    (cooldownTime (steadyFrame 1000 false 0 0 1 : Frame ℝ).nowCooldown
        (create : World ℝ).gameState = 4
      ↔ (steadyFrame 1000 false 0 0 1 : Frame ℝ).nowInfo
        = (create : World ℝ).gameState.lastShotTime) ∧
    ((steadyFrame 1000 false 0 0 1 : Frame ℝ).nowInfo
        ≠ (create : World ℝ).gameState.lastShotTime →
      cooldownTime (steadyFrame 1000 false 0 0 1 : Frame ℝ).nowCooldown
        (create : World ℝ).gameState ≤ 3) ∧
    (updateText (steadyFrame 1000 false 0 0 1 : Frame ℝ) (create : World ℝ)).infoText =
      "Cooldown until next shot: "
        ++ toString (cooldownTime (steadyFrame 1000 false 0 0 1 : Frame ℝ).nowCooldown
          (create : World ℝ).gameState)
        ++ " second"
        ++ (if cooldownTime (steadyFrame 1000 false 0 0 1 : Frame ℝ).nowCooldown
          (create : World ℝ).gameState = 1 then "" else "s")
        ++ ".") :=
  ⟨rfl, by decide, by decide,
    cooldownTime_between_one_and_four _ _ rfl (by decide) (by decide)⟩

/-- C15: in a Playing frame (with its arrow, ten `topmostEnemyOnLane` slots and
every enemy at `0 ≤ x < 800`) the spawn loop starts in a world `wl` where, for
every lane `i < 10`, `topmostEnemyOnLane[i]` is the minimum of 600 and the `y`
of the enemies whose lane `⌊x / 80⌋` is `i`: it is at most 600 and at most each
such `y`, it is 600 or one of those `y`, and exactly 600 for a lane without
enemy.  Every enemy counts for one of the ten lanes, and the result is the same
whatever the array held before the frame. -/
theorem topmost_is_lane_minimum (m : JSMath α) (f : Frame α) (w : World α)
    (hplaying : w.gameState.gameOver = false) (harrow : w.arrowGroup ≠ [])
    (hlen : w.gameState.topmostEnemyOnLane.length = 10)
    (hx : ∀ e ∈ w.enemyGroup, 0 ≤ e.x ∧ e.x < 800) :
    ∃ wl, update m f w = .ok (spawnEnemies f wl) ∧
      (∀ i : Nat, i < 10 →
        wl.gameState.topmostEnemyOnLane[i]? = some (laneTopmost i w.enemyGroup)) ∧
      (∀ i : Nat, i < 10 →
        laneTopmost i w.enemyGroup ≤ 600 ∧
        (∀ e ∈ w.enemyGroup, ⌊e.x / 80⌋ = (i : Int) → laneTopmost i w.enemyGroup ≤ e.y) ∧
        (laneTopmost i w.enemyGroup = 600 ∨
          ∃ e ∈ w.enemyGroup, ⌊e.x / 80⌋ = (i : Int) ∧ laneTopmost i w.enemyGroup = e.y) ∧
        ((∀ e ∈ w.enemyGroup, ⌊e.x / 80⌋ ≠ (i : Int)) → laneTopmost i w.enemyGroup = 600)) ∧
      (∀ e ∈ w.enemyGroup, ∃ i : Nat, i < 10 ∧ ⌊e.x / 80⌋ = (i : Int)) ∧
      (∀ old : List α, old.length = 10 → ∀ i : Nat, i < 10 →
        (updateTopmostEnemyOnLane
            { w with gameState := { w.gameState with topmostEnemyOnLane := old } }
          ).gameState.topmostEnemyOnLane[i]? = some (laneTopmost i w.enemyGroup)) := by
  obtain ⟨wl, hok, _, _, _, ht⟩ := update_playing m f w hplaying harrow
  refine ⟨wl, hok, ?_, fun i _ => laneTopmost_isMin i w.enemyGroup,
    fun e he => lane_of_enemy_in_canvas e (hx e he), ?_⟩
  · intro i hi
    rw [ht]
    exact updateTopmostEnemyOnLane_getElem? w i (by rw [hlen]; exact hi)
  · intro old hold i hi
    exact updateTopmostEnemyOnLane_getElem?
      { w with gameState := { w.gameState with topmostEnemyOnLane := old } } i
      (by show i < old.length; rw [hold]; exact hi)

/-- C15 at a sample input: `twoEnemyWorld` and a frame at time 2000. -/
theorem topmost_is_lane_minimum_witness :
    (twoEnemyWorld : World ℝ).gameState.gameOver = false ∧
    (twoEnemyWorld : World ℝ).arrowGroup ≠ [] ∧
    (twoEnemyWorld : World ℝ).gameState.topmostEnemyOnLane.length = 10 ∧
    (∀ e ∈ (twoEnemyWorld : World ℝ).enemyGroup, 0 ≤ e.x ∧ e.x < 800) ∧
    ∃ wl, update realMath (steadyFrame 2000 false 0 0 1) (twoEnemyWorld : World ℝ)
        = .ok (spawnEnemies (steadyFrame 2000 false 0 0 1) wl) ∧
      (∀ i : Nat, i < 10 →
        wl.gameState.topmostEnemyOnLane[i]?
          = some (laneTopmost i (twoEnemyWorld : World ℝ).enemyGroup)) ∧
      (∀ i : Nat, i < 10 →
        laneTopmost i (twoEnemyWorld : World ℝ).enemyGroup ≤ 600 ∧
        (∀ e ∈ (twoEnemyWorld : World ℝ).enemyGroup, ⌊e.x / 80⌋ = (i : Int) →
          laneTopmost i (twoEnemyWorld : World ℝ).enemyGroup ≤ e.y) ∧
        (laneTopmost i (twoEnemyWorld : World ℝ).enemyGroup = 600 ∨
          ∃ e ∈ (twoEnemyWorld : World ℝ).enemyGroup, ⌊e.x / 80⌋ = (i : Int) ∧
            laneTopmost i (twoEnemyWorld : World ℝ).enemyGroup = e.y) ∧
        ((∀ e ∈ (twoEnemyWorld : World ℝ).enemyGroup, ⌊e.x / 80⌋ ≠ (i : Int)) →
          laneTopmost i (twoEnemyWorld : World ℝ).enemyGroup = 600)) ∧
      (∀ e ∈ (twoEnemyWorld : World ℝ).enemyGroup, ∃ i : Nat, i < 10 ∧ ⌊e.x / 80⌋ = (i : Int)) ∧
      (∀ old : List ℝ, old.length = 10 → ∀ i : Nat, i < 10 →
        (updateTopmostEnemyOnLane
            { (twoEnemyWorld : World ℝ) with
              gameState :=
                { (twoEnemyWorld : World ℝ).gameState with topmostEnemyOnLane := old } }
          ).gameState.topmostEnemyOnLane[i]?
          = some (laneTopmost i (twoEnemyWorld : World ℝ).enemyGroup)) :=
  ⟨rfl, by simp [twoEnemyWorld, create, startGame], rfl,
    by simp [twoEnemyWorld, spawnedEnemy]; norm_num,
    topmost_is_lane_minimum realMath _ _ rfl (by simp [twoEnemyWorld, create, startGame]) rfl
      (by simp [twoEnemyWorld, spawnedEnemy]; norm_num)⟩

/-- C17: for every lane `i` in `[0, 10)` the spawn `x` `(i + 0.5) * 80` maps back
to the lane: `floor(((i + 0.5) * 80) / 80) = i`, which lies in `[0, 10)`; the
spawn `y` 15 is at most 40; and in every Playing frame that starts with an
enemy at the spawn position of lane `i`, the recomputed
`topmostEnemyOnLane[i]` is at most 15, so the lane is not eligible whatever
its timer and draw: the frame creates no enemy for lane `i` and leaves
`lastSpawnTime[i]` unchanged. -/
theorem spawn_position_blocks_lane (i : Nat) (hi : i < 10) :
    ⌊(((i : α) + 0.5) * 80) / 80⌋ = (i : Int) ∧
    (0 : Int) ≤ ⌊(((i : α) + 0.5) * 80) / 80⌋ ∧ ⌊(((i : α) + 0.5) * 80) / 80⌋ < 10 ∧
    (∀ s : Int, ⌊(spawnedEnemy i s : Enemy α).x / 80⌋ = (i : Int) ∧
      (spawnedEnemy i s : Enemy α).y = 15) ∧
    (15 : α) ≤ 40 ∧
    ∀ (m : JSMath α) (f : Frame α) (w : World α) (e : Enemy α),
      w.gameState.gameOver = false → w.arrowGroup ≠ [] →
      w.gameState.topmostEnemyOnLane.length = 10 →
      e ∈ w.enemyGroup → e.x = ((i : α) + 0.5) * 80 → e.y = 15 →
      ∃ wl top created, update m f w = .ok (spawnEnemies f wl) ∧
        wl.gameState.topmostEnemyOnLane[i]? = some top ∧ top ≤ 15 ∧
        ¬ laneSpawnDue f w i ∧
        (spawnEnemies f wl).enemyGroup = w.enemyGroup ++ created ∧
        created.filter (fun c => decide (c.x = ((i : α) + 0.5) * 80)) = [] ∧
        (spawnEnemies f wl).gameState.lastSpawnTime[i]? = w.gameState.lastSpawnTime[i]? := by
  have hfloor : ⌊(((i : α) + 0.5) * 80) / 80⌋ = (i : Int) := floor_lane_centre i
  refine ⟨hfloor, by rw [hfloor]; omega, by rw [hfloor]; omega,
    fun s => ⟨hfloor, rfl⟩, by norm_num, ?_⟩
  intro m f w e hplaying harrow hlen he hex hey
  obtain ⟨wl, hok, hen, hs, hl, ht⟩ := update_playing m f w hplaying harrow
  have htop : (updateTopmostEnemyOnLane w).gameState.topmostEnemyOnLane[i]?
      = some (laneTopmost i w.enemyGroup) :=
    updateTopmostEnemyOnLane_getElem? w i (by rw [hlen]; exact hi)
  have hle : laneTopmost i w.enemyGroup ≤ 15 := by
    have := (laneTopmost_isMin i w.enemyGroup).2.1 e he (by rw [hex]; exact hfloor)
    rwa [hey] at this
  have hnot : ¬ laneSpawnDue f w i := by
    rintro ⟨t, top, _, h2, _, h4, _⟩
    rw [htop] at h2
    have : top = laneTopmost i w.enemyGroup := by simpa using h2.symm
    rw [this] at h4
    have h40 : (15 : α) ≤ 40 := by norm_num
    exact absurd (lt_of_lt_of_le h4 (le_trans hle h40)) (lt_irrefl _)
  have hsp : ¬ laneSpawns f i wl = true :=
    fun h => hnot ((laneSpawns_iff_laneSpawnDue f w wl i hl ht).mp h)
  refine ⟨wl, laneTopmost i w.enemyGroup,
    ((List.range ENEMY_SPAWN_LANES).filter (fun j => laneSpawns f j wl)).map
      (fun j => spawnedEnemy j w.gameState.score),
    hok, by rw [ht]; exact htop, hle, hnot, ?_, ?_, ?_⟩
  · rw [spawnEnemies, foldl_considerLane_enemyGroup f _ (List.nodup_range _) wl, hen, hs]
  · rw [spawned_filter_lane _ (List.nodup_range _)]
    simp [hsp]
  · rw [spawnEnemies, foldl_considerLane_lastSpawnTime f _ (List.nodup_range _) wl i, hl]
    simp [hsp]

/-- C17 at a sample input: lane 1 of `twoEnemyWorld`, whose first enemy is at
the spawn position of lane 1, in a frame at time 2000 whose draws are all 0. -/
theorem spawn_position_blocks_lane_witness :
    (1 : Nat) < 10 ∧
    (twoEnemyWorld : World ℝ).gameState.gameOver = false ∧
    (twoEnemyWorld : World ℝ).arrowGroup ≠ [] ∧
    (twoEnemyWorld : World ℝ).gameState.topmostEnemyOnLane.length = 10 ∧
    (spawnedEnemy 1 0 : Enemy ℝ) ∈ (twoEnemyWorld : World ℝ).enemyGroup ∧
    (spawnedEnemy 1 0 : Enemy ℝ).x = (((1 : Nat) : ℝ) + 0.5) * 80 ∧
    (spawnedEnemy 1 0 : Enemy ℝ).y = 15 ∧
    ⌊((((1 : Nat) : ℝ) + 0.5) * 80) / 80⌋ = ((1 : Nat) : Int) ∧
    ∃ wl top created,
      update realMath (steadyFrame 2000 false 0 0 0) (twoEnemyWorld : World ℝ)
        = .ok (spawnEnemies (steadyFrame 2000 false 0 0 0) wl) ∧
      wl.gameState.topmostEnemyOnLane[1]? = some top ∧ top ≤ 15 ∧
      ¬ laneSpawnDue (steadyFrame 2000 false 0 0 0) (twoEnemyWorld : World ℝ) 1 ∧
      (spawnEnemies (steadyFrame 2000 false 0 0 0) wl).enemyGroup
        = (twoEnemyWorld : World ℝ).enemyGroup ++ created ∧
      created.filter (fun c => decide (c.x = (((1 : Nat) : ℝ) + 0.5) * 80)) = [] ∧
      (spawnEnemies (steadyFrame 2000 false 0 0 0) wl).gameState.lastSpawnTime[1]?
        = (twoEnemyWorld : World ℝ).gameState.lastSpawnTime[1]? :=
  ⟨by decide, rfl, by simp [twoEnemyWorld, create, startGame], rfl,
    by simp [twoEnemyWorld], rfl, rfl,
    (@spawn_position_blocks_lane ℝ _ _ 1 (by decide)).1,
    (@spawn_position_blocks_lane ℝ _ _ 1 (by decide)).2.2.2.2.2 realMath
      (steadyFrame 2000 false 0 0 0) twoEnemyWorld (spawnedEnemy 1 0) rfl
      (by simp [twoEnemyWorld, create, startGame]) rfl (by simp [twoEnemyWorld]) rfl rfl⟩

end Claims

end Breakout
